import Mathlib

/-!
Shallow embedding of the telemetry platform core
(`backend_common/conversion.py`, the conversion backfill worker and its
task repository, the telemetry ingest route, and the webhook delivery
store), with theorems checking the specification claims against it.

Python floats are modelled as rationals; a Python function that can let an
exception escape is modelled with `Except String`, where `.error msg`
stands for the uncaught exception (with `msg` its `str(...)` rendering).
-/

namespace TelemetryCore

/-! ## Python value universe (conversion payload fields) -/

/-- A JSON/Python value as observed by `backend_common.conversion`:
`num q` is a value that is an instance of `int` or `float` (Python `bool`
is an `int` subclass, so `True`/`False` are `num 1`/`num 0`); `numStr q`
is a string that `float()` parses to `q` (floatable but not an
`int`/`float` instance); `other` is any remaining value (`None`, dicts,
lists, non-numeric strings, ...). -/
inductive PyVal where
  | num (q : ℚ)
  | numStr (q : ℚ)
  | other
  deriving DecidableEq, Repr

/-- The check `isinstance(v, (int, float))` fused with the conversion
`float(v)` applied on success: `some q` when `v` is an `int`/`float`
instance of value `q`, else `none`. -/
def pyNumVal : PyVal → Option ℚ
  | .num q => some q
  | _ => none

/-- Python `float(v)`: succeeds on `int`/`float` instances and on numeric
strings, raises otherwise (modelled as `none`). -/
def pyFloat : PyVal → Option ℚ
  | .num q => some q
  | .numStr q => some q
  | .other => none

/-- One entry of a `lookup_table` payload's `table` list.  A field models
the subscript `p["raw"]` / `p["physical"]`: `none` means the subscript
raises (the entry is not a mapping, or the key is absent). -/
structure RawPoint where
  raw : Option PyVal
  physical : Option PyVal
  deriving DecidableEq, Repr

/-- The payload dict as read by the conversion functions.  `payload.get(k)`
for an absent key yields Python `None`, which behaves exactly like any
other non-numeric value, so absent `a`/`b` are modelled as `PyVal.other`.
For `coefficients` and `table` the code only distinguishes list values
from everything else, so `none` covers both an absent key and a non-list
value. -/
structure Payload where
  a : PyVal := .other
  b : PyVal := .other
  coefficients : Option (List PyVal) := none
  table : Option (List RawPoint) := none
  deriving DecidableEq, Repr

/-- Result of a conversion call: `.ok r` is a normal return (Python
`None` = `r.isNone`), `.error msg` an uncaught exception. -/
abbrev PyResult := Except String (Option ℚ)

/-! ## backend_common/conversion.py -/

/-- Embedding of `_apply_linear`. -/
def _apply_linear (payload : Payload) (raw_value : ℚ) : Option ℚ :=
  match pyNumVal payload.a, pyNumVal payload.b with
  | some a, some b => some (a * raw_value + b)
  | _, _ => none

/-- The loop of `_apply_polynomial`: for each coefficient `c`, fail on the
`isinstance` check or accumulate `result += float(c) * power` and
`power *= raw_value`. -/
def polyLoop (raw_value : ℚ) : List PyVal → ℚ → ℚ → Option ℚ
  | [], result, _ => some result
  | c :: rest, result, power =>
    match pyNumVal c with
    | none => none
    | some q => polyLoop raw_value rest (result + q * power) (power * raw_value)

/-- Embedding of `_apply_polynomial`. -/
def _apply_polynomial (payload : Payload) (raw_value : ℚ) : Option ℚ :=
  match payload.coefficients with
  | none => none
  | some coefficients =>
    if coefficients.length = 0 then none
    else polyLoop raw_value coefficients 0 1

/-- Key extraction `float(p["raw"])`: `none` when the subscript or the
`float()` conversion raises. -/
def rawKey (p : RawPoint) : Option ℚ := p.raw.bind pyFloat

/-- Value extraction `float(p["physical"])`. -/
def physKey (p : RawPoint) : Option ℚ := p.physical.bind pyFloat

/-- The statement `sorted(table, key=lambda p: float(p["raw"]))`: computing
a key may raise (the caller catches it, giving `none`); otherwise the
entries are sorted, stably, in ascending key order (Python `sorted` is a
stable ascending sort, modelled here by insertion sort). -/
def sortByRaw (table : List RawPoint) : Option (List RawPoint) :=
  if table.all fun p => (rawKey p).isSome then
    some (table.insertionSort fun p q => (rawKey p).getD 0 ≤ (rawKey q).getD 0)
  else none

/-- The interpolation loop of `_apply_lookup_table` over consecutive pairs
`i, i+1`.  Note the source computes all four of `x0, y0, x1, y1` before
testing `x0 <= raw_value <= x1`, so an entry with an unreadable
`"physical"` raises as soon as its pair is visited, bracketing or not. -/
def lookupLoop (raw_value : ℚ) : List RawPoint → PyResult
  | p0 :: p1 :: rest =>
    match rawKey p0, physKey p0, rawKey p1, physKey p1 with
    | some x0, some y0, some x1, some y1 =>
      if x0 ≤ raw_value ∧ raw_value ≤ x1 then
        .ok (some (y0 + (if x1 ≠ x0 then (raw_value - x0) / (x1 - x0) else 0) * (y1 - y0)))
      else lookupLoop raw_value (p1 :: rest)
    | _, _, _, _ => .error "KeyError"
  | _ => .ok none

/-- Embedding of `_apply_lookup_table`.  Only the sort is inside the
source's `try`/`except`; boundary and loop accesses to `"physical"` can
raise, which the embedding surfaces as `.error`. -/
def _apply_lookup_table (payload : Payload) (raw_value : ℚ) : PyResult :=
  match payload.table with
  | none => .ok none
  | some table =>
    if table.length < 2 then .ok none
    else
      match sortByRaw table with
      | none => .ok none
      | some sorted_points =>
        match sorted_points, sorted_points.getLast? with
        | first :: _, some last =>
          match rawKey first with
          | none => .error "ValueError"
          | some x_min =>
            if raw_value ≤ x_min then
              match physKey first with
              | some y => .ok (some y)
              | none => .error "KeyError"
            else
              match rawKey last with
              | none => .error "ValueError"
              | some x_max =>
                if x_max ≤ raw_value then
                  match physKey last with
                  | some y => .ok (some y)
                  | none => .error "KeyError"
                else lookupLoop raw_value sorted_points
        | _, _ => .error "IndexError"

/-- Embedding of `apply_conversion`: dispatch on the profile kind; an
unrecognised kind yields `None`. -/
def apply_conversion (kind : String) (payload : Payload) (raw_value : ℚ) : PyResult :=
  if kind = "linear" then .ok (_apply_linear payload raw_value)
  else if kind = "polynomial" then .ok (_apply_polynomial payload raw_value)
  else if kind = "lookup_table" then _apply_lookup_table payload raw_value
  else .ok none

/-! ## Backfill task model (`conversion_backfill_tasks` table and its
repository, `experiment_service/repositories/backfill_tasks.py`) -/

/-- Status column of `conversion_backfill_tasks`. -/
inductive TaskStatus where
  | pending
  | running
  | completed
  | failed
  deriving DecidableEq, Repr

/-- One row of `conversion_backfill_tasks`. -/
structure BackfillTask where
  id : ℕ
  sensor_id : ℕ
  project_id : ℕ
  conversion_profile_id : ℕ
  status : TaskStatus
  created_at : ℕ
  started_at : Option ℕ := none
  completed_at : Option ℕ := none
  total_records : ℕ := 0
  processed_records : ℕ := 0
  error_message : Option String := none
  deriving DecidableEq, Repr

/-- SQL `UPDATE conversion_backfill_tasks SET ... WHERE id = task_id`:
apply the field update to every row whose id matches. -/
def updateTask (tasks : List BackfillTask) (task_id : ℕ)
    (f : BackfillTask → BackfillTask) : List BackfillTask :=
  tasks.map fun t => if t.id = task_id then f t else t

/-- The claim subquery
`SELECT id FROM conversion_backfill_tasks WHERE status = 'pending'
ORDER BY created_at ASC LIMIT 1`: the first pending row in ascending
`created_at` order. -/
def selectPending (tasks : List BackfillTask) : Option BackfillTask :=
  ((tasks.filter fun t => t.status = .pending).insertionSort
    fun a b => a.created_at ≤ b.created_at).head?

/-- Embedding of `BackfillTaskRepository.claim_pending`: atomically pick one
pending task, set it running with `started_at = now()`, and return the
updated row; return nothing when no pending task exists. -/
def claim_pending (now : ℕ) (tasks : List BackfillTask) :
    Option BackfillTask × List BackfillTask :=
  match selectPending tasks with
  | none => (none, tasks)
  | some t =>
    (some { t with status := .running, started_at := some now },
     updateTask tasks t.id fun u => { u with status := .running, started_at := some now })

/-- Embedding of `BackfillTaskRepository.set_total`. -/
def set_total (tasks : List BackfillTask) (task_id total : ℕ) : List BackfillTask :=
  updateTask tasks task_id fun u => { u with total_records := total }

/-- Embedding of `BackfillTaskRepository.update_progress`. -/
def update_progress (tasks : List BackfillTask) (task_id processed : ℕ) : List BackfillTask :=
  updateTask tasks task_id fun u => { u with processed_records := processed }

/-- Embedding of `BackfillTaskRepository.mark_completed`. -/
def mark_completed (tasks : List BackfillTask) (task_id processed now : ℕ) : List BackfillTask :=
  updateTask tasks task_id fun u =>
    { u with status := .completed, processed_records := processed, completed_at := some now }

/-- Embedding of `BackfillTaskRepository.mark_failed`. -/
def mark_failed (tasks : List BackfillTask) (task_id : ℕ) (error_message : String)
    (now : ℕ) : List BackfillTask :=
  updateTask tasks task_id fun u =>
    { u with status := .failed, error_message := some error_message, completed_at := some now }

/-! ## Telemetry records and the backfill worker
(`experiment_service/workers/conversion_backfill.py`) -/

/-- Value of the `conversion_status` column. -/
inductive ConvStatus where
  | converted
  | raw_only
  | conversion_failed
  deriving DecidableEq, Repr

/-- One row of `telemetry_records`.  Timestamps are modelled as naturals
with `datetime.min = 0`; `meta` is an opaque association list. -/
structure TelemetryRecord where
  id : ℕ
  sensor_id : ℕ
  timestamp : ℕ
  signal : String
  raw_value : ℚ
  physical_value : Option ℚ := none
  conversion_status : ConvStatus := .raw_only
  conversion_profile_id : Option ℕ := none
  capture_session_id : Option ℕ := none
  meta : List (String × String) := []
  deriving DecidableEq, Repr

/-- The keyset cursor key `(timestamp, id)`. -/
def recKey (r : TelemetryRecord) : ℕ × ℕ := (r.timestamp, r.id)

/-- Strict lexicographic comparison `(t1, i1) < (t2, i2)` used by the
keyset pagination predicate. -/
def keyLt (k l : ℕ × ℕ) : Bool := k.1 < l.1 || (k.1 = l.1 && k.2 < l.2)

/-- Non-strict lexicographic comparison, the `ORDER BY timestamp, id`
ordering. -/
def keyLe (k l : ℕ × ℕ) : Bool := k.1 < l.1 || (k.1 = l.1 && k.2 ≤ l.2)

/-- The WHERE condition shared by the count query and the page query:
`conversion_profile_id IS DISTINCT FROM profile_id
 OR conversion_status IN ('raw_only', 'conversion_failed')`. -/
def needsWork (profile_id : ℕ) (r : TelemetryRecord) : Bool :=
  r.conversion_profile_id ≠ some profile_id
    || r.conversion_status = .raw_only || r.conversion_status = .conversion_failed

/-- `BATCH_SIZE = 1000`. -/
def BATCH_SIZE : ℕ := 1000

/-- The page query: rows of the sensor that need work and lie strictly
beyond the cursor, ordered by `(timestamp, id)` ascending, `LIMIT 1000`. -/
def fetchPage (sensor_id profile_id : ℕ) (records : List TelemetryRecord)
    (cursor : ℕ × ℕ) : List TelemetryRecord :=
  ((records.filter fun r =>
      r.sensor_id = sensor_id && needsWork profile_id r && keyLt cursor (recKey r)).insertionSort
    fun a b => keyLe (recKey a) (recKey b) = true).take BATCH_SIZE

/-- The per-row body of the page loop: recompute with `apply_conversion`
and build the corresponding UPDATE
(`SET physical_value, conversion_status, conversion_profile_id`); a raised
conversion exception escapes to the worker's handler. -/
def backfillUpdate (kind : String) (payload : Payload) (profile_id : ℕ)
    (r : TelemetryRecord) : Except String TelemetryRecord :=
  match apply_conversion kind payload r.raw_value with
  | .error msg => .error msg
  | .ok (some v) =>
    .ok { r with physical_value := some v, conversion_status := .converted,
                 conversion_profile_id := some profile_id }
  | .ok none =>
    .ok { r with physical_value := none, conversion_status := .conversion_failed,
                 conversion_profile_id := some profile_id }

/-- The `executemany` of a page: each updated row replaces the stored row
matched by `WHERE id = $4 AND sensor_id = $5 AND timestamp = $6`. -/
def applyUpdates (records updated : List TelemetryRecord) : List TelemetryRecord :=
  records.map fun r =>
    match updated.find? fun u =>
        u.id = r.id && u.sensor_id = r.sensor_id && u.timestamp = r.timestamp with
    | some u => u
    | none => r

/-- The for-loop over a fetched page building the `updates` list: each row
is recomputed with `backfillUpdate`; a raised conversion exception aborts
the whole function (the page's updates are lost). -/
def buildUpdates (kind : String) (payload : Payload) (profile_id : ℕ) :
    List TelemetryRecord → Except String (List TelemetryRecord)
  | [] => .ok []
  | r :: rs =>
    match backfillUpdate kind payload profile_id r with
    | .error e => .error e
    | .ok u =>
      match buildUpdates kind payload profile_id rs with
      | .error e => .error e
      | .ok us => .ok (u :: us)

/-- Outcome of the page loop: normal exit (`emptyPage` tells which of the
two exit conditions fired), an escaped conversion exception, or fuel
exhaustion (never reached for sufficient fuel, see the pagination
theorem). -/
inductive LoopResult where
  | completed (records : List TelemetryRecord) (processed : ℕ) (emptyPage : Bool)
  | raised (records : List TelemetryRecord) (processed : ℕ) (msg : String)
  | outOfFuel
  deriving DecidableEq, Repr

/-- The `while processed < total` page loop of `conversion_backfill`,
with explicit fuel to make the recursion structural.  On a non-empty page
the cursor moves to the key of the last fetched row and `processed`
advances by the page length. -/
def backfillLoop (kind : String) (payload : Payload) (sensor_id profile_id : ℕ) :
    ℕ → List TelemetryRecord → ℕ × ℕ → ℕ → ℕ → LoopResult
  | 0, _, _, _, _ => .outOfFuel
  | fuel + 1, records, cursor, processed, total =>
    if processed < total then
      match fetchPage sensor_id profile_id records cursor with
      | [] => .completed records processed true
      | row :: rows =>
        match buildUpdates kind payload profile_id (row :: rows) with
        | .error msg => .raised records processed msg
        | .ok updated =>
          backfillLoop kind payload sensor_id profile_id fuel
            (applyUpdates records updated)
            (recKey ((row :: rows).getLast (List.cons_ne_nil row rows)))
            (processed + (row :: rows).length) total
    else .completed records processed false

/-- A row of `conversion_profiles` as read by the worker. -/
structure Profile where
  id : ℕ
  kind : String
  payload : Payload
  deriving DecidableEq, Repr

/-- The database state the worker touches. -/
structure World where
  tasks : List BackfillTask
  profiles : List Profile
  records : List TelemetryRecord
  deriving DecidableEq, Repr

/-- Initial keyset cursor `(datetime.min, 0)`. -/
def initCursor : ℕ × ℕ := (0, 0)

/-- Python string slicing `s[:n]`: the first `n` characters. -/
def pyTake (s : String) (n : ℕ) : String := ⟨s.data.take n⟩

/-- Rows strictly beyond the cursor; the loop's termination measure. -/
def countBeyond (records : List TelemetryRecord) (cursor : ℕ × ℕ) : ℕ :=
  (records.filter fun r => keyLt cursor (recKey r)).length

/-- Fuel provably sufficient for the page loop: one more than the number
of rows beyond the cursor. -/
def loopFuel (records : List TelemetryRecord) (cursor : ℕ × ℕ) : ℕ :=
  countBeyond records cursor + 1

/-- Embedding of the worker entry point `conversion_backfill`: claim one
pending task, load its profile, count the records needing work, run the
page loop, and mark the task completed - any exception instead marks it
failed with the message truncated to 500 characters, and the worker
returns normally. -/
def conversion_backfill (now : ℕ) (w : World) : Option String × World :=
  match claim_pending now w.tasks with
  | (none, _) => (none, w)
  | (some task, tasks1) =>
    match w.profiles.find? fun p => p.id = task.conversion_profile_id with
    | none =>
      (some "failed: profile not found",
       { w with tasks := mark_failed tasks1 task.id "Conversion profile not found" now })
    | some profile =>
      let total := (w.records.filter fun r =>
        r.sensor_id = task.sensor_id && needsWork task.conversion_profile_id r).length
      let tasks2 := set_total tasks1 task.id total
      if total = 0 then
        (some "completed: 0 records",
         { w with tasks := mark_completed tasks2 task.id 0 now })
      else
        match backfillLoop profile.kind profile.payload task.sensor_id
            task.conversion_profile_id (loopFuel w.records initCursor)
            w.records initCursor 0 total with
        | .completed records processed _ =>
          (some "completed",
           { w with tasks := mark_completed tasks2 task.id processed now, records := records })
        | .raised records processed msg =>
          (some "failed",
           { w with tasks := mark_failed (update_progress tasks2 task.id processed) task.id
                              (pyTake msg 500) now,
                    records := records })
        | .outOfFuel => (none, w)

/-- The aggregate per-row effect of one backfill run: every stored row
matching the task's WHERE clause is recomputed with `backfillUpdate`
(exactly the operation the page loop applies to each fetched row); rows
outside the clause are untouched.  A raised conversion exception aborts
the pass. -/
def backfillPass (kind : String) (payload : Payload) (sensor_id profile_id : ℕ) :
    List TelemetryRecord → Except String (List TelemetryRecord)
  | [] => .ok []
  | r :: rs =>
    match (if r.sensor_id = sensor_id ∧ needsWork profile_id r
           then backfillUpdate kind payload profile_id r else .ok r) with
    | .error e => .error e
    | .ok x =>
      match backfillPass kind payload sensor_id profile_id rs with
      | .error e => .error e
      | .ok xs => .ok (x :: xs)

/-! ## Telemetry ingest HTTP route
(`telemetry_ingest_service/api/routes/telemetry.py` and `domain/dto.py`) -/

/-- One validated reading (`TelemetryReadingDTO`). -/
structure TelemetryReadingDTO where
  timestamp : ℕ
  raw_value : ℚ
  physical_value : Option ℚ := none
  meta : List (String × String) := []
  deriving DecidableEq, Repr

/-- The validated request body (`TelemetryIngestDTO`). -/
structure TelemetryIngestDTO where
  sensor_id : ℕ
  run_id : Option ℕ := none
  capture_session_id : Option ℕ := none
  meta : List (String × String) := []
  readings : List TelemetryReadingDTO
  deriving DecidableEq, Repr

/-- The parsed JSON object handed to `TelemetryIngestDTO.model_validate`.
`readings = none` models a missing or ill-typed `readings` value;
`fields_ok` abstracts the remaining pydantic schema checks (`sensor_id`
present and well-typed, optional fields well-typed, `extra="forbid"`). -/
structure IngestBody where
  fields_ok : Bool := true
  sensor_id : ℕ := 0
  run_id : Option ℕ := none
  capture_session_id : Option ℕ := none
  meta : List (String × String) := []
  readings : Option (List TelemetryReadingDTO) := none
  deriving DecidableEq, Repr

/-- `TelemetryIngestDTO.model_validate`: succeed exactly when the declared
field schema holds and `readings` satisfies
`conlist(min_length=1, max_length=10_000)`. -/
def model_validate (body : IngestBody) : Except String TelemetryIngestDTO :=
  match body.readings with
  | none => .error "validation_error"
  | some readings =>
    if body.fields_ok = false then .error "validation_error"
    else if readings.length < 1 then .error "validation_error"
    else if readings.length > 10000 then .error "validation_error"
    else .ok { sensor_id := body.sensor_id, run_id := body.run_id,
               capture_session_id := body.capture_session_id,
               meta := body.meta, readings := readings }

/-- The typed domain errors of `telemetry_ingest_service.core.exceptions`
that `TelemetryIngestService.ingest` can raise. -/
inductive ServiceError where
  | unauthorized
  | scopeMismatch
  | notFound
  deriving DecidableEq, Repr

/-- The authentication/scope environment of one request, deciding which
domain error, if any, the service raises. -/
inductive ServiceOutcome where
  | ok
  | unauthorized
  | scopeMismatch
  | notFound
  deriving DecidableEq, Repr

/-- Modelled from the spec: `TelemetryIngestService.ingest` (the service
class `telemetry_ingest_service/services/telemetry.py` is not among the
provided sources; spec section 4.3).  On success the whole batch is
bulk-inserted atomically and the count of inserted readings is returned;
on a typed domain failure nothing is written and the error is raised. -/
def serviceIngest (outcome : ServiceOutcome) (dto : TelemetryIngestDTO)
    (store : List (ℕ × TelemetryReadingDTO)) :
    Except ServiceError (ℕ × List (ℕ × TelemetryReadingDTO)) :=
  match outcome with
  | .unauthorized => .error .unauthorized
  | .scopeMismatch => .error .scopeMismatch
  | .notFound => .error .notFound
  | .ok => .ok (dto.readings.length, store ++ dto.readings.map fun r => (dto.sensor_id, r))

/-- The HTTP response of the route: status code plus the `accepted` field
of the success body. -/
structure IngestResponse where
  status : ℕ
  accepted : Option ℕ := none
  deriving DecidableEq, Repr

/-- Python `str.strip()` (restricted to spaces), on the character-list
view of the string. -/
def pyStrip (s : String) : String :=
  ⟨((s.data.dropWhile fun c => c = ' ').reverse.dropWhile fun c => c = ' ').reverse⟩

/-- Embedding of `_extract_sensor_token`: require
`Authorization: Bearer <nonempty token>`; the header must start with
`Bearer ` and the stripped remainder must be nonempty. -/
def extractSensorToken (authorization : Option String) : Option String :=
  match authorization with
  | none => none
  | some h =>
    if "Bearer ".data.isPrefixOf h.data then
      let token := pyStrip ⟨h.data.drop 7⟩
      if token = "" then none else some token
    else none

/-- Embedding of the route handler `ingest_telemetry`: extract the bearer
token, validate the body, call the service, map typed errors to HTTP
statuses (`UnauthorizedError` to 401, `ScopeMismatchError` to 400,
`NotFoundError` to 404) and answer 202 with the accepted count on
success.  A missing token or a validation failure answers before the
service runs.  Returns the response with the resulting telemetry store. -/
def ingest_telemetry (outcome : ServiceOutcome) (authorization : Option String)
    (body : IngestBody) (store : List (ℕ × TelemetryReadingDTO)) :
    IngestResponse × List (ℕ × TelemetryReadingDTO) :=
  match extractSensorToken authorization with
  | none => ({ status := 401 }, store)
  | some _ =>
    match model_validate body with
    | .error _ => ({ status := 400 }, store)
    | .ok dto =>
      match serviceIngest outcome dto store with
      | .error .unauthorized => ({ status := 401 }, store)
      | .error .scopeMismatch => ({ status := 400 }, store)
      | .error .notFound => ({ status := 404 }, store)
      | .ok (accepted, store2) => ({ status := 202, accepted := some accepted }, store2)

/-! ## Webhook delivery store (spec-modelled) -/

/-- Status column of `webhook_deliveries`. -/
inductive DeliveryStatus where
  | pending
  | in_progress
  | succeeded
  | failed
  deriving DecidableEq, Repr

/-- One row of `webhook_deliveries`. -/
structure WebhookDelivery where
  id : ℕ
  subscription_id : ℕ
  project_id : ℕ
  event_type : String
  target_url : String
  secret : Option String := none
  request_body : String
  status : DeliveryStatus := .pending
  attempt_count : ℕ := 0
  dedup_key : String
  deriving DecidableEq, Repr

/-- Modelled from the spec: `WebhookDeliveryRepository.enqueue`
(`experiment_service/repositories/webhooks.py` is not among the provided
sources; spec sections 3 and 4.5, and the test
`test_webhook_enqueue_dedup_key_returns_existing`).  Insert a pending
delivery row unless a row with the same `dedup_key` already exists - the
unique-key conflict - in which case the pre-existing row is returned and
nothing is inserted. -/
def enqueue (store : List WebhookDelivery) (next_id subscription_id project_id : ℕ)
    (event_type target_url : String) (secret : Option String)
    (request_body dedup_key : String) : WebhookDelivery × List WebhookDelivery :=
  match store.find? fun d => d.dedup_key = dedup_key with
  | some d => (d, store)
  | none =>
    let d : WebhookDelivery :=
      { id := next_id, subscription_id := subscription_id, project_id := project_id,
        event_type := event_type, target_url := target_url, secret := secret,
        request_body := request_body, status := .pending, attempt_count := 0,
        dedup_key := dedup_key }
    (d, store ++ [d])

/-- At most one `webhook_deliveries` row per dedup key (invariant (e) of
the spec). -/
def dedupUnique (store : List WebhookDelivery) : Prop :=
  ∀ k : String, ((store.filter fun d => d.dedup_key = k).length ≤ 1)

/-! ## Theorems: conversion engine -/

lemma polyLoop_num (x : ℚ) (cs : List ℚ) : ∀ (r p : ℚ),
    polyLoop x (cs.map PyVal.num) r p
      = some (r + ∑ i ∈ Finset.range cs.length, cs.getD i 0 * (p * x ^ i)) := by
  induction cs with
  | nil => intro r p; simp [polyLoop]
  | cons c rest ih =>
    intro r p
    simp only [List.map_cons, polyLoop, pyNumVal]
    rw [ih (r + c * p) (p * x)]
    congr 1
    rw [List.length_cons, Finset.sum_range_succ']
    simp only [List.getD_cons_succ, List.getD_cons_zero, pow_zero]
    have hsum : ∀ i ∈ Finset.range rest.length,
        rest.getD i 0 * (p * x ^ (i + 1)) = rest.getD i 0 * (p * x * x ^ i) := by
      intro i _; ring
    rw [Finset.sum_congr rfl hsum]
    ring

lemma polyLoop_bad (x : ℚ) (cs : List PyVal) : ∀ (r p : ℚ),
    (∃ c ∈ cs, pyNumVal c = none) → polyLoop x cs r p = none := by
  induction cs with
  | nil => simp
  | cons c rest ih =>
    rintro r p ⟨d, hd, hnum⟩
    rcases List.mem_cons.mp hd with rfl | hmem
    · simp [polyLoop, hnum]
    · cases hc : pyNumVal c with
      | none => simp [polyLoop, hc]
      | some q =>
        simp only [polyLoop, hc]
        exact ih _ _ ⟨d, hmem, hnum⟩

/-- C1: for every payload whose coefficients field is a non-empty list of
numbers c0..cn, the polynomial conversion returns the sum
c0 + c1 x + ... + cn x^n; a missing or non-list coefficients field, an
empty list, or a list with a non-numeric entry gives None. -/
theorem polynomial_conversion_spec (payload : Payload) (x : ℚ) :
    (∀ cs : List ℚ, payload.coefficients = some (cs.map PyVal.num) → cs ≠ [] →
      apply_conversion "polynomial" payload x
        = .ok (some (∑ i ∈ Finset.range cs.length, cs.getD i 0 * x ^ i)))
  ∧ (payload.coefficients = none → apply_conversion "polynomial" payload x = .ok none)
  ∧ (payload.coefficients = some [] → apply_conversion "polynomial" payload x = .ok none)
  ∧ (∀ l, payload.coefficients = some l → (∃ c ∈ l, pyNumVal c = none) →
      apply_conversion "polynomial" payload x = .ok none) := by
  refine ⟨?_, ?_, ?_, ?_⟩
  · intro cs hcs hne
    have hlen : (cs.map PyVal.num).length ≠ 0 := by
      simpa using fun h => hne (List.length_eq_zero.mp h)
    simp only [apply_conversion, reduceIte, _apply_polynomial, hcs, if_neg hlen]
    rw [polyLoop_num]
    simp
  · intro h
    simp [apply_conversion, _apply_polynomial, h]
  · intro h
    simp [apply_conversion, _apply_polynomial, h]
  · intro l hl hbad
    rcases l with _ | ⟨c, rest⟩
    · simp [apply_conversion, _apply_polynomial, hl]
    · simp only [apply_conversion, reduceIte, _apply_polynomial, hl]
      rw [polyLoop_bad x _ 0 1 hbad]
      simp

/-- Witness: coefficients [1, 2] at x = 3 give 1 + 2·3 = 7. -/
theorem polynomial_conversion_spec_witness :
    apply_conversion "polynomial"
      { coefficients := some ([1, 2].map PyVal.num) } 3 = .ok (some 7) := by
  have h := (polynomial_conversion_spec
      { coefficients := some ([(1 : ℚ), 2].map PyVal.num) } 3).1 [1, 2] rfl (by simp)
  rw [h]
  norm_num [Finset.sum_range_succ]

/-- C2 (failing input): a table entry with a well-formed raw but an absent
physical makes the lookup conversion raise an uncaught KeyError - reaching
the caller - instead of returning None as the module documents for invalid
payloads. -/
theorem lookup_malformed_physical_raises :
    apply_conversion "lookup_table"
      { table := some [{ raw := some (.num 0), physical := some (.num 0) },
                       { raw := some (.num 10), physical := none }] } 20
      = .error "KeyError" := rfl

lemma apply_conversion_lookup (payload : Payload) (x : ℚ) :
    apply_conversion "lookup_table" payload x = _apply_lookup_table payload x := by
  rw [apply_conversion, if_neg (by decide), if_neg (by decide), if_pos rfl]

lemma sortByRaw_of_wf (table : List RawPoint)
    (h : ∀ p ∈ table, (rawKey p).isSome) :
    sortByRaw table
      = some (table.insertionSort fun p q => (rawKey p).getD 0 ≤ (rawKey q).getD 0) := by
  rw [sortByRaw, if_pos]
  exact List.all_eq_true.mpr fun p hp => by simpa using h p hp

lemma lookupLoop_bracket (x : ℚ) :
    ∀ (s : List RawPoint), (∀ p ∈ s, (rawKey p).isSome ∧ (physKey p).isSome) →
      ∀ (p0 pl : RawPoint) (x0 xl : ℚ), s.head? = some p0 → s.getLast? = some pl →
        rawKey p0 = some x0 → rawKey pl = some xl → x0 < x → x < xl →
        ∃ y, lookupLoop x s = .ok (some y) := by
  intro s
  induction s with
  | nil => intro _ p0 pl x0 xl h; simp at h
  | cons q tail ih =>
    intro hwf p0 pl x0 xl hhead hlast hk0 hkl hlt hgt
    have hq : q = p0 := by simpa using hhead
    subst hq
    cases tail with
    | nil =>
      have hpl : q = pl := by simpa using hlast
      subst hpl
      rw [hk0] at hkl
      injection hkl with h
      subst h
      exact absurd (hlt.trans hgt) (lt_irrefl x0)
    | cons q1 rest =>
      obtain ⟨hr0, hp0⟩ := hwf q (List.mem_cons_self q _)
      obtain ⟨hr1, hp1⟩ := hwf q1 (List.mem_cons.mpr (Or.inr (List.mem_cons_self q1 rest)))
      obtain ⟨y0, hy0⟩ := Option.isSome_iff_exists.mp hp0
      obtain ⟨x1, hx1⟩ := Option.isSome_iff_exists.mp hr1
      obtain ⟨y1, hy1⟩ := Option.isSome_iff_exists.mp hp1
      by_cases hbr : x0 ≤ x ∧ x ≤ x1
      · refine ⟨y0 + (if x1 ≠ x0 then (x - x0) / (x1 - x0) else 0) * (y1 - y0), ?_⟩
        simp only [lookupLoop, hk0, hy0, hx1, hy1, if_pos hbr]
      · have hx1lt : x1 < x := by
          rcases not_and_or.mp hbr with h | h
          · exact absurd hlt.le h
          · exact lt_of_not_le h
        have hlast2 : (q1 :: rest).getLast? = some pl := by
          rw [← List.getLast?_cons_cons (a := q)]
          exact hlast
        obtain ⟨y, hy⟩ := ih (fun p hp => hwf p (List.mem_cons.mpr (Or.inr hp)))
          q1 pl x1 xl rfl hlast2 hx1 hkl hx1lt hgt
        exact ⟨y, by simp only [lookupLoop, hk0, hy0, hx1, hy1, if_neg hbr]; exact hy⟩

/-- C9: whenever the table payload parses into at least two points whose
raw and physical fields are both readable as floats, the lookup-table
conversion returns a value for every input - the trailing fall-through
None after the interpolation loop is unreachable. -/
theorem lookup_table_total (payload : Payload) (table : List RawPoint) (x : ℚ)
    (htable : payload.table = some table) (hlen : 2 ≤ table.length)
    (hwf : ∀ p ∈ table, (rawKey p).isSome ∧ (physKey p).isSome) :
    ∃ y : ℚ, apply_conversion "lookup_table" payload x = .ok (some y) := by
  have hsort := sortByRaw_of_wf table fun p hp => (hwf p hp).1
  set s := table.insertionSort fun p q => (rawKey p).getD 0 ≤ (rawKey q).getD 0 with hs
  have hperm : s.Perm table := List.perm_insertionSort _ _
  have hwfs : ∀ p ∈ s, (rawKey p).isSome ∧ (physKey p).isSome :=
    fun p hp => hwf p (hperm.subset hp)
  have hslen : 2 ≤ s.length := by rw [hperm.length_eq]; exact hlen
  cases hcs : s with
  | nil => rw [hcs] at hslen; simp at hslen
  | cons first t =>
  have hlast : s.getLast? = some (s.getLast (by rw [hcs]; exact List.cons_ne_nil _ _)) :=
    List.getLast?_eq_getLast _ _
  set last := s.getLast (by rw [hcs]; exact List.cons_ne_nil _ _) with hlastdef
  have hfirstmem : first ∈ s := by rw [hcs]; exact List.mem_cons_self _ _
  have hlastmem : last ∈ s := List.getLast_mem _
  obtain ⟨hfr, hfp⟩ := hwfs first hfirstmem
  obtain ⟨hlr, hlp⟩ := hwfs last hlastmem
  obtain ⟨xmin, hxmin⟩ := Option.isSome_iff_exists.mp hfr
  obtain ⟨ymin, hymin⟩ := Option.isSome_iff_exists.mp hfp
  obtain ⟨xmax, hxmax⟩ := Option.isSome_iff_exists.mp hlr
  obtain ⟨ymax, hymax⟩ := Option.isSome_iff_exists.mp hlp
  have hnot2 : ¬ table.length < 2 := by omega
  rw [hcs] at hlast
  by_cases hlow : x ≤ xmin
  · exact ⟨ymin, by
      rw [apply_conversion_lookup]
      simp only [_apply_lookup_table, htable, if_neg hnot2,
        hsort, hcs, hlast, hxmin, if_pos hlow, hymin]⟩
  · by_cases hhigh : xmax ≤ x
    · exact ⟨ymax, by
        rw [apply_conversion_lookup]
        simp only [_apply_lookup_table, htable, if_neg hnot2,
          hsort, hcs, hlast, hxmin, if_neg hlow, hxmax, if_pos hhigh, hymax]⟩
    · have hhead : (first :: t).head? = some first := rfl
      have hlast2 : (first :: t).getLast? = some last := hlast
      obtain ⟨y, hy⟩ := lookupLoop_bracket x (first :: t) (by rw [← hcs]; exact hwfs)
        first last xmin xmax hhead hlast2 hxmin hxmax (lt_of_not_le hlow) (lt_of_not_le hhigh)
      exact ⟨y, by
        rw [apply_conversion_lookup]
        simp only [_apply_lookup_table, htable, if_neg hnot2,
          hsort, hcs, hlast, hxmin, if_neg hlow, hxmax, if_neg hhigh]
        exact hy⟩

/-- Witness: the two-point table (0,0),(10,100) yields a value at x = 5. -/
theorem lookup_table_total_witness :
    ∃ y : ℚ, apply_conversion "lookup_table"
      { table := some [{ raw := some (.num 0), physical := some (.num 0) },
                       { raw := some (.num 10), physical := some (.num 100) }] } 5
      = .ok (some y) := by
  apply lookup_table_total _
    [{ raw := some (.num 0), physical := some (.num 0) },
     { raw := some (.num 10), physical := some (.num 100) }] 5 rfl (by simp)
  intro p hp
  rcases List.mem_cons.mp hp with rfl | hp
  · exact ⟨rfl, rfl⟩
  · rcases List.mem_cons.mp hp with rfl | hp
    · exact ⟨rfl, rfl⟩
    · simp at hp

/-! ## Theorems: backfill row recomputation -/

lemma backfillUpdate_converges (kind : String) (payload : Payload) (profile_id : ℕ)
    (r r' : TelemetryRecord) (h : backfillUpdate kind payload profile_id r = .ok r') :
    backfillUpdate kind payload profile_id r' = .ok r' := by
  cases hconv : apply_conversion kind payload r.raw_value with
  | error msg => simp [backfillUpdate, hconv] at h
  | ok o =>
    cases o with
    | none =>
      simp only [backfillUpdate, hconv] at h
      obtain rfl := Except.ok.inj h
      have hco : apply_conversion kind payload
          ({ r with physical_value := none, conversion_status := ConvStatus.conversion_failed,
                    conversion_profile_id := some profile_id } : TelemetryRecord).raw_value
          = .ok none := hconv
      simp [backfillUpdate, hco]
    | some v =>
      simp only [backfillUpdate, hconv] at h
      obtain rfl := Except.ok.inj h
      have hco : apply_conversion kind payload
          ({ r with physical_value := some v, conversion_status := ConvStatus.converted,
                    conversion_profile_id := some profile_id } : TelemetryRecord).raw_value
          = .ok (some v) := hconv
      simp [backfillUpdate, hco]

lemma backfillUpdate_sensor (kind : String) (payload : Payload) (profile_id : ℕ)
    (r r' : TelemetryRecord) (h : backfillUpdate kind payload profile_id r = .ok r') :
    r'.sensor_id = r.sensor_id := by
  cases hconv : apply_conversion kind payload r.raw_value with
  | error msg => simp [backfillUpdate, hconv] at h
  | ok o =>
    cases o with
    | none => simp only [backfillUpdate, hconv] at h; obtain rfl := Except.ok.inj h; rfl
    | some v => simp only [backfillUpdate, hconv] at h; obtain rfl := Except.ok.inj h; rfl

/-- The backfill recomputation converges per row - a second run of the
whole-sensor pass over the output of a successful first run returns that
output unchanged (row-level form of the idempotence claim). -/
theorem backfill_pass_idempotent (kind : String) (payload : Payload)
    (sensor_id profile_id : ℕ) (records records1 : List TelemetryRecord)
    (h : backfillPass kind payload sensor_id profile_id records = .ok records1) :
    backfillPass kind payload sensor_id profile_id records1 = .ok records1 := by
  induction records generalizing records1 with
  | nil =>
    rw [backfillPass] at h
    obtain rfl := Except.ok.inj h
    rfl
  | cons r rs ih =>
    rw [backfillPass] at h
    cases hf : (if r.sensor_id = sensor_id ∧ needsWork profile_id r
        then backfillUpdate kind payload profile_id r else Except.ok r) with
    | error e => rw [hf] at h; simp at h
    | ok x =>
      rw [hf] at h
      cases hrest : backfillPass kind payload sensor_id profile_id rs with
      | error e => rw [hrest] at h; simp at h
      | ok xs =>
        rw [hrest] at h
        simp only at h
        obtain rfl := Except.ok.inj h
        have hxs := ih xs hrest
        have hx : (if x.sensor_id = sensor_id ∧ needsWork profile_id x
            then backfillUpdate kind payload profile_id x else Except.ok x) = Except.ok x := by
          by_cases hcond : r.sensor_id = sensor_id ∧ needsWork profile_id r
          · rw [if_pos hcond] at hf
            by_cases hcondx : x.sensor_id = sensor_id ∧ needsWork profile_id x
            · rw [if_pos hcondx]
              exact backfillUpdate_converges kind payload profile_id r x hf
            · rw [if_neg hcondx]
          · rw [if_neg hcond] at hf
            obtain rfl := Except.ok.inj hf
            rw [if_neg hcond]
        rw [backfillPass, hx, hxs]

/-- Witness: a one-record store under an unknown profile kind converges
after one pass (the record is marked conversion_failed) and the second
pass leaves it unchanged. -/
theorem backfill_pass_idempotent_witness :
    backfillPass "bogus" {} 1 7
      [{ id := 1, sensor_id := 1, timestamp := 1, signal := "s", raw_value := 3,
         physical_value := none, conversion_status := .conversion_failed,
         conversion_profile_id := some 7 }]
    = .ok [{ id := 1, sensor_id := 1, timestamp := 1, signal := "s", raw_value := 3,
             physical_value := none, conversion_status := .conversion_failed,
             conversion_profile_id := some 7 }] := by
  apply backfill_pass_idempotent "bogus" {} 1 7
    [{ id := 1, sensor_id := 1, timestamp := 1, signal := "s", raw_value := 3 }]
  rfl

/-- C10: a processed record always gets conversion_profile_id set to the
task's profile id; the update writes only physical_value,
conversion_status and conversion_profile_id, leaving raw_value,
timestamp, signal, meta, capture_session_id (and the key fields)
unchanged; a bottom conversion yields a NULL physical_value with status
conversion_failed, and a value yields that value with status converted. -/
theorem backfill_update_frame (kind : String) (payload : Payload) (profile_id : ℕ)
    (r r' : TelemetryRecord) (h : backfillUpdate kind payload profile_id r = .ok r') :
    r'.conversion_profile_id = some profile_id
  ∧ r'.raw_value = r.raw_value ∧ r'.timestamp = r.timestamp ∧ r'.signal = r.signal
  ∧ r'.meta = r.meta ∧ r'.capture_session_id = r.capture_session_id
  ∧ r'.id = r.id ∧ r'.sensor_id = r.sensor_id
  ∧ (apply_conversion kind payload r.raw_value = .ok none →
      r'.physical_value = none ∧ r'.conversion_status = .conversion_failed)
  ∧ (∀ v, apply_conversion kind payload r.raw_value = .ok (some v) →
      r'.physical_value = some v ∧ r'.conversion_status = .converted) := by
  cases hconv : apply_conversion kind payload r.raw_value with
  | error msg => simp [backfillUpdate, hconv] at h
  | ok o =>
    cases o with
    | none =>
      simp only [backfillUpdate, hconv] at h
      obtain rfl := Except.ok.inj h
      refine ⟨rfl, rfl, rfl, rfl, rfl, rfl, rfl, rfl, fun _ => ⟨rfl, rfl⟩, fun v hv => ?_⟩
      simp at hv
    | some v =>
      simp only [backfillUpdate, hconv] at h
      obtain rfl := Except.ok.inj h
      refine ⟨rfl, rfl, rfl, rfl, rfl, rfl, rfl, rfl, fun hn => ?_, fun w hw => ?_⟩
      · simp at hn
      · obtain rfl : v = w := Option.some.inj (Except.ok.inj hw)
        exact ⟨rfl, rfl⟩

/-- Witness: the frame theorem at a linear profile over one record. -/
theorem backfill_update_frame_witness :
    ∃ r' : TelemetryRecord,
      backfillUpdate "bogus" {} 7
        { id := 4, sensor_id := 2, timestamp := 9, signal := "t", raw_value := 5,
          capture_session_id := some 3, meta := [("k", "v")] } = .ok r'
      ∧ r'.conversion_profile_id = some 7 ∧ r'.raw_value = 5 ∧ r'.timestamp = 9
      ∧ r'.signal = "t" ∧ r'.meta = [("k", "v")] ∧ r'.capture_session_id = some 3 := by
  refine ⟨{ id := 4, sensor_id := 2, timestamp := 9, signal := "t", raw_value := 5,
            physical_value := none, conversion_status := .conversion_failed,
            conversion_profile_id := some 7,
            capture_session_id := some 3, meta := [("k", "v")] }, rfl, ?_⟩
  have h := backfill_update_frame "bogus" {} 7
    { id := 4, sensor_id := 2, timestamp := 9, signal := "t", raw_value := 5,
      capture_session_id := some 3, meta := [("k", "v")] } _ rfl
  exact ⟨h.1, h.2.1, h.2.2.1, h.2.2.2.1, h.2.2.2.2.1, h.2.2.2.2.2.1⟩

/-! ## Theorems: claiming backfill tasks -/

instance : IsTotal BackfillTask fun a b => a.created_at ≤ b.created_at :=
  ⟨fun a b => Nat.le_total a.created_at b.created_at⟩

instance : IsTrans BackfillTask fun a b => a.created_at ≤ b.created_at :=
  ⟨fun _ _ _ h h2 => Nat.le_trans h h2⟩

lemma selectPending_eq_none_iff (tasks : List BackfillTask) :
    selectPending tasks = none ↔ ∀ t ∈ tasks, t.status ≠ .pending := by
  rw [selectPending, List.head?_eq_none_iff]
  have hperm := List.perm_insertionSort
    (fun a b : BackfillTask => a.created_at ≤ b.created_at)
    (tasks.filter fun t => t.status = TaskStatus.pending)
  constructor
  · intro h t ht hst
    rw [h] at hperm
    have : t ∈ (tasks.filter fun t => t.status = TaskStatus.pending) :=
      List.mem_filter.mpr ⟨ht, by simp [hst]⟩
    rw [← hperm.mem_iff] at this
    simp at this
  · intro h
    have : (tasks.filter fun t => t.status = TaskStatus.pending) = [] :=
      List.filter_eq_nil_iff.mpr fun t ht => by simp [h t ht]
    rw [this] at hperm ⊢
    exact List.Perm.eq_nil hperm

lemma selectPending_eq_some (tasks : List BackfillTask) (t : BackfillTask)
    (h : selectPending tasks = some t) :
    t ∈ tasks ∧ t.status = .pending
      ∧ ∀ u ∈ tasks, u.status = .pending → t.created_at ≤ u.created_at := by
  rw [selectPending] at h
  set l := tasks.filter fun t => t.status = TaskStatus.pending with hl
  have hperm := List.perm_insertionSort
    (fun a b : BackfillTask => a.created_at ≤ b.created_at) l
  have hsorted := List.sorted_insertionSort
    (fun a b : BackfillTask => a.created_at ≤ b.created_at) l
  set s := l.insertionSort fun a b : BackfillTask => a.created_at ≤ b.created_at with hs
  cases hcs : s with
  | nil => rw [hcs] at h; simp at h
  | cons hd tl =>
    rw [hcs] at h
    obtain rfl : hd = t := by simpa using h
    rw [hcs] at hperm hsorted
    have hmem : hd ∈ l := hperm.subset (List.mem_cons_self hd tl)
    have hmf := List.mem_filter.mp hmem
    refine ⟨hmf.1, by simpa using hmf.2, ?_⟩
    intro u hu hup
    have humem : u ∈ hd :: tl := hperm.mem_iff.mpr (List.mem_filter.mpr ⟨hu, by simp [hup]⟩)
    rcases List.mem_cons.mp humem with rfl | hutl
    · exact le_refl _
    · exact (List.sorted_cons.mp hsorted).1 u hutl

/-- C4: claiming a backfill task picks a pending task with the earliest
created_at, marks exactly that task running with started_at stamped, and
returns it; with no pending task it returns nothing and changes nothing;
and a claimed task can never be claimed again, so each task transitions
pending to running at most once. -/
theorem claim_pending_spec (now : ℕ) (tasks : List BackfillTask)
    (hids : (tasks.map fun t => t.id).Nodup) :
    ((∀ t ∈ tasks, t.status ≠ .pending) → claim_pending now tasks = (none, tasks))
  ∧ (∀ t', (claim_pending now tasks).1 = some t' →
      ∃ t ∈ tasks, t.status = .pending
        ∧ (∀ u ∈ tasks, u.status = .pending → t.created_at ≤ u.created_at)
        ∧ t' = { t with status := .running, started_at := some now }
        ∧ (claim_pending now tasks).2
            = updateTask tasks t.id fun u => { u with status := .running, started_at := some now })
  ∧ (∀ t', (claim_pending now tasks).1 = some t' →
      ∀ t'', (claim_pending now (claim_pending now tasks).2).1 = some t'' →
        t''.id ≠ t'.id) := by
  refine ⟨?_, ?_, ?_⟩
  · intro h
    rw [claim_pending, (selectPending_eq_none_iff tasks).mpr h]
  · intro t' h
    cases hsel : selectPending tasks with
    | none => rw [claim_pending, hsel] at h; simp at h
    | some t =>
      obtain ⟨hmem, hpend, hmin⟩ := selectPending_eq_some tasks t hsel
      rw [claim_pending, hsel] at h
      simp only at h
      obtain rfl := Option.some.inj h
      exact ⟨t, hmem, hpend, hmin, rfl, by rw [claim_pending, hsel]⟩
  · intro t' h t'' h2
    cases hsel : selectPending tasks with
    | none => rw [claim_pending, hsel] at h; simp at h
    | some t =>
      obtain ⟨hmem, hpend, hmin⟩ := selectPending_eq_some tasks t hsel
      rw [claim_pending, hsel] at h
      simp only at h
      obtain rfl := Option.some.inj h
      have htasks2 : (claim_pending now tasks).2
          = updateTask tasks t.id fun u => { u with status := .running, started_at := some now } := by
        rw [claim_pending, hsel]
      rw [htasks2] at h2
      cases hsel2 : selectPending (updateTask tasks t.id
          fun u => { u with status := .running, started_at := some now }) with
      | none => rw [claim_pending, hsel2] at h2; simp at h2
      | some sSel =>
        obtain ⟨hmem2, hpend2, _⟩ := selectPending_eq_some _ sSel hsel2
        rw [claim_pending, hsel2] at h2
        simp only at h2
        obtain rfl := Option.some.inj h2
        simp only [updateTask, List.mem_map] at hmem2
        obtain ⟨u, hu, hueq⟩ := hmem2
        by_cases hid : u.id = t.id
        · have : u = t := List.inj_on_of_nodup_map hids hu hmem hid
          subst this
          rw [if_pos hid] at hueq
          rw [← hueq] at hpend2
          simp at hpend2
        · rw [if_neg hid] at hueq
          subst hueq
          simpa using hid

/-- Witness: a store with no pending task yields no claim and is
unchanged. -/
theorem claim_pending_spec_witness :
    claim_pending 7
      [{ id := 1, sensor_id := 1, project_id := 1, conversion_profile_id := 1,
         status := .completed, created_at := 2 },
       { id := 2, sensor_id := 1, project_id := 1, conversion_profile_id := 1,
         status := .failed, created_at := 1 }]
    = (none,
       [{ id := 1, sensor_id := 1, project_id := 1, conversion_profile_id := 1,
          status := .completed, created_at := 2 },
        { id := 2, sensor_id := 1, project_id := 1, conversion_profile_id := 1,
          status := .failed, created_at := 1 }]) :=
  (claim_pending_spec 7 _ (by decide)).1 (by decide)

/-! ## Theorems: webhook enqueue deduplication -/

/-- C8: enqueueing a delivery whose dedup_key already exists creates no
new row and returns the pre-existing row; the returned row always carries
the dedup_key and is present in the store; and a store with at most one
row per dedup_key keeps that invariant across any enqueue. -/
theorem webhook_enqueue_dedup (store : List WebhookDelivery)
    (next_id subscription_id project_id : ℕ) (event_type target_url : String)
    (secret : Option String) (request_body dedup_key : String) :
    ((∃ d0 ∈ store, d0.dedup_key = dedup_key) →
        (enqueue store next_id subscription_id project_id event_type target_url secret
          request_body dedup_key).2 = store
      ∧ (enqueue store next_id subscription_id project_id event_type target_url secret
          request_body dedup_key).1 ∈ store)
  ∧ (enqueue store next_id subscription_id project_id event_type target_url secret
      request_body dedup_key).1.dedup_key = dedup_key
  ∧ (enqueue store next_id subscription_id project_id event_type target_url secret
      request_body dedup_key).1
      ∈ (enqueue store next_id subscription_id project_id event_type target_url secret
          request_body dedup_key).2
  ∧ (dedupUnique store →
      dedupUnique (enqueue store next_id subscription_id project_id event_type target_url
        secret request_body dedup_key).2) := by
  cases hfind : store.find? fun d => d.dedup_key = dedup_key with
  | some d =>
    have hmem := List.mem_of_find?_eq_some hfind
    have hkey : d.dedup_key = dedup_key := by simpa using List.find?_some hfind
    refine ⟨fun _ => ⟨?_, ?_⟩, ?_, ?_, fun hu => ?_⟩ <;>
      simp only [enqueue, hfind]
    · exact hmem
    · exact hkey
    · exact hmem
    · exact hu
  | none =>
    have hnone : ∀ d ∈ store, d.dedup_key ≠ dedup_key := by
      intro d hd
      have := List.find?_eq_none.mp hfind d hd
      simpa using this
    refine ⟨fun hex => ?_, ?_, ?_, fun hu => ?_⟩
    · obtain ⟨d0, hd0, hkey⟩ := hex
      exact absurd hkey (hnone d0 hd0)
    · simp only [enqueue, hfind]
    · simp only [enqueue, hfind]
      exact List.mem_append_right _ (List.mem_singleton.mpr rfl)
    · intro k
      simp only [enqueue, hfind, List.filter_append]
      rw [List.length_append]
      by_cases hk : k = dedup_key
      · subst hk
        have hfe : (store.filter fun d => d.dedup_key = k) = [] :=
          List.filter_eq_nil_iff.mpr fun d hd => by simpa using hnone d hd
        rw [hfe]
        simp
      · have hne : ¬ (dedup_key = k) := fun h => hk h.symm
        simp only [List.filter_singleton]
        simpa [hne] using hu k

/-- Witness: enqueueing the same dedup key twice leaves a single row. -/
theorem webhook_enqueue_dedup_witness :
    (enqueue
      (enqueue [] 1 10 20 "run.started" "http://example.com/hook" none "b" "k").2
      2 10 20 "run.started" "http://example.com/hook" none "b" "k").2
    = (enqueue [] 1 10 20 "run.started" "http://example.com/hook" none "b" "k").2 :=
  ((webhook_enqueue_dedup
      (enqueue [] 1 10 20 "run.started" "http://example.com/hook" none "b" "k").2
      2 10 20 "run.started" "http://example.com/hook" none "b" "k").1
    ⟨{ id := 1, subscription_id := 10, project_id := 20, event_type := "run.started",
       target_url := "http://example.com/hook", secret := none, request_body := "b",
       status := .pending, attempt_count := 0, dedup_key := "k" }, by decide, by decide⟩).1

/-! ## Theorems: ingest route -/

/-- C7: with a bearer token present, the route accepts only batches of 1
to 10000 readings - an out-of-range batch or any schema violation is
answered 400 with no write - and maps domain failures
unauthorized to 401, scope mismatch to 400, not found to 404; on success
it answers 202 with accepted = N where N is the number of readings
inserted into the store. -/
theorem ingest_route_spec (outcome : ServiceOutcome) (authorization : Option String)
    (body : IngestBody) (store : List (ℕ × TelemetryReadingDTO))
    (token : String) (hauth : extractSensorToken authorization = some token) :
    (∀ readings, body.readings = some readings →
      (readings.length < 1 ∨ readings.length > 10000) →
      ingest_telemetry outcome authorization body store = ({ status := 400 }, store))
  ∧ (body.readings = none →
      ingest_telemetry outcome authorization body store = ({ status := 400 }, store))
  ∧ (body.fields_ok = false →
      ingest_telemetry outcome authorization body store = ({ status := 400 }, store))
  ∧ (∀ dto, model_validate body = .ok dto →
        (1 ≤ dto.readings.length ∧ dto.readings.length ≤ 10000)
      ∧ (outcome = .unauthorized →
          ingest_telemetry outcome authorization body store = ({ status := 401 }, store))
      ∧ (outcome = .scopeMismatch →
          ingest_telemetry outcome authorization body store = ({ status := 400 }, store))
      ∧ (outcome = .notFound →
          ingest_telemetry outcome authorization body store = ({ status := 404 }, store))
      ∧ (outcome = .ok →
          ingest_telemetry outcome authorization body store
            = ({ status := 202, accepted := some dto.readings.length },
               store ++ dto.readings.map fun r => (dto.sensor_id, r))
        ∧ (store ++ dto.readings.map fun r => (dto.sensor_id, r)).length
            = store.length + dto.readings.length)) := by
  refine ⟨?_, ?_, ?_, ?_⟩
  · intro readings hr hrange
    have hval : model_validate body = .error "validation_error" := by
      simp only [model_validate, hr]
      split_ifs with h1 h2 h3
      · rfl
      · rfl
      · rfl
      · rcases hrange with h | h
        · exact absurd h h2
        · exact absurd h h3
    rw [ingest_telemetry, hauth, hval]
  · intro hr
    have hval : model_validate body = .error "validation_error" := by
      simp only [model_validate, hr]
    rw [ingest_telemetry, hauth, hval]
  · intro hfo
    have hval : model_validate body = .error "validation_error" := by
      cases hr : body.readings with
      | none => simp only [model_validate, hr]
      | some readings =>
        simp only [model_validate, hr]
        rw [if_pos hfo]
    rw [ingest_telemetry, hauth, hval]
  · intro dto hdto
    have hbounds : 1 ≤ dto.readings.length ∧ dto.readings.length ≤ 10000 := by
      cases hr : body.readings with
      | none => simp [model_validate, hr] at hdto
      | some readings =>
        simp only [model_validate, hr] at hdto
        split_ifs at hdto with h1 h2 h3
        have hread : readings = dto.readings :=
          congrArg TelemetryIngestDTO.readings (Except.ok.inj hdto)
        rw [← hread]
        exact ⟨by omega, by omega⟩
    refine ⟨hbounds, fun ho => ?_, fun ho => ?_, fun ho => ?_, fun ho => ?_⟩ <;>
      subst ho <;>
      rw [ingest_telemetry, hauth, hdto]
    · rfl
    · rfl
    · rfl
    · exact ⟨rfl, by simp⟩

/-- Witness: a valid single-reading batch is accepted with 202 and one
inserted row. -/
theorem ingest_route_spec_witness :
    ingest_telemetry .ok (some "Bearer tok")
      { sensor_id := 9,
        readings := some [{ timestamp := 1, raw_value := 3 }] } []
    = ({ status := 202, accepted := some 1 },
       [(9, { timestamp := 1, raw_value := 3 })]) := by
  have h := ((ingest_route_spec .ok (some "Bearer tok")
      { sensor_id := 9, readings := some [{ timestamp := 1, raw_value := 3 }] } []
      "tok" (by decide)).2.2.2
      { sensor_id := 9, readings := [{ timestamp := 1, raw_value := 3 }] }
      rfl).2.2.2.2 rfl
  exact h.1

/-! ## Theorems: keyset pagination and loop termination -/

lemma keyLt_iff (k l : ℕ × ℕ) :
    keyLt k l = true ↔ k.1 < l.1 ∨ (k.1 = l.1 ∧ k.2 < l.2) := by
  simp [keyLt]

lemma keyLe_iff (k l : ℕ × ℕ) :
    keyLe k l = true ↔ k.1 < l.1 ∨ (k.1 = l.1 ∧ k.2 ≤ l.2) := by
  simp [keyLe]

lemma keyLt_trans {a b c : ℕ × ℕ} (h1 : keyLt a b = true) (h2 : keyLt b c = true) :
    keyLt a c = true := by
  rw [keyLt_iff] at h1 h2 ⊢
  omega

lemma keyLt_irrefl (k : ℕ × ℕ) : keyLt k k = false := by
  simp [keyLt]

instance : IsTotal TelemetryRecord fun a b => keyLe (recKey a) (recKey b) = true :=
  ⟨fun a b => by rw [keyLe_iff, keyLe_iff]; omega⟩

instance : IsTrans TelemetryRecord fun a b => keyLe (recKey a) (recKey b) = true :=
  ⟨fun a b c h1 h2 => by rw [keyLe_iff] at h1 h2 ⊢; omega⟩

lemma countP_lt_of_mem {α : Type} (l : List α) (p q : α → Bool)
    (himp : ∀ x ∈ l, p x = true → q x = true) (a : α) (ha : a ∈ l)
    (hqa : q a = true) (hpa : p a = false) : l.countP p < l.countP q := by
  induction l with
  | nil => simp at ha
  | cons x xs ih =>
    rw [List.countP_cons, List.countP_cons]
    rcases List.mem_cons.mp ha with rfl | hmem
    · have h1 : List.countP p xs ≤ List.countP q xs :=
        List.countP_mono_left fun y hy => himp y (List.mem_cons_of_mem _ hy)
      simp [hqa, hpa]
      omega
    · have h1 := ih (fun y hy => himp y (List.mem_cons_of_mem _ hy)) hmem
      have h2 : (if p x = true then 1 else 0) ≤ (if q x = true then 1 else 0) := by
        by_cases hpx : p x = true
        · simp [hpx, himp x (List.mem_cons_self _ _) hpx]
        · simp [hpx]
      omega

lemma recKey_applyUpdates_elem (updated : List TelemetryRecord) (r : TelemetryRecord) :
    recKey (match updated.find? fun u =>
        u.id = r.id && u.sensor_id = r.sensor_id && u.timestamp = r.timestamp with
      | some u => u
      | none => r) = recKey r := by
  cases hf : updated.find? fun u =>
      u.id = r.id && u.sensor_id = r.sensor_id && u.timestamp = r.timestamp with
  | none => rfl
  | some u =>
    have hu := List.find?_some hf
    simp only [Bool.and_eq_true, decide_eq_true_eq] at hu
    simp [recKey, hu.1.1, hu.2]

lemma countBeyond_applyUpdates (records updated : List TelemetryRecord) (cursor : ℕ × ℕ) :
    countBeyond (applyUpdates records updated) cursor = countBeyond records cursor := by
  rw [countBeyond, countBeyond, applyUpdates,
    ← List.countP_eq_length_filter, ← List.countP_eq_length_filter, List.countP_map]
  apply List.countP_congr
  intro r _
  simp only [Function.comp_apply]
  rw [recKey_applyUpdates_elem updated r]

lemma mem_fetchPage (sensor_id profile_id : ℕ) (records : List TelemetryRecord)
    (cursor : ℕ × ℕ) (r : TelemetryRecord)
    (h : r ∈ fetchPage sensor_id profile_id records cursor) :
    r ∈ records ∧ r.sensor_id = sensor_id ∧ needsWork profile_id r = true
      ∧ keyLt cursor (recKey r) = true := by
  rw [fetchPage] at h
  have h1 := List.mem_of_mem_take h
  have h2 := (List.perm_insertionSort _ _).subset h1
  have h3 := List.mem_filter.mp h2
  have hcond := h3.2
  simp only [Bool.and_eq_true, decide_eq_true_eq] at hcond
  exact ⟨h3.1, hcond.1.1, hcond.1.2, hcond.2⟩

lemma countBeyond_strict (records : List TelemetryRecord) (cursor : ℕ × ℕ)
    (last : TelemetryRecord) (hmem : last ∈ records)
    (hgt : keyLt cursor (recKey last) = true) :
    countBeyond records (recKey last) < countBeyond records cursor := by
  rw [countBeyond, countBeyond, ← List.countP_eq_length_filter,
    ← List.countP_eq_length_filter]
  exact countP_lt_of_mem records _ _
    (fun x _ hx => keyLt_trans hgt hx) last hmem hgt (keyLt_irrefl _)

lemma backfillLoop_no_fuel_exhaustion (kind : String) (payload : Payload)
    (sensor_id profile_id : ℕ) :
    ∀ (fuel : ℕ) (records : List TelemetryRecord) (cursor : ℕ × ℕ) (processed total : ℕ),
      countBeyond records cursor < fuel →
      backfillLoop kind payload sensor_id profile_id fuel records cursor processed total
        ≠ .outOfFuel := by
  intro fuel
  induction fuel with
  | zero => intro records cursor processed total h; omega
  | succ n ih =>
    intro records cursor processed total h
    rw [backfillLoop]
    by_cases hp : processed < total
    · rw [if_pos hp]
      split
      · simp
      · next row rows hpage =>
        split
        · simp
        · next updated hupd =>
          apply ih
          rw [countBeyond_applyUpdates]
          have hmem_all : ∀ r ∈ row :: rows,
              r ∈ records ∧ r.sensor_id = sensor_id ∧ needsWork profile_id r = true
                ∧ keyLt cursor (recKey r) = true := by
            rw [← hpage]
            exact fun r hr => mem_fetchPage sensor_id profile_id records cursor r hr
          obtain ⟨hmem, _, _, hgt⟩ := hmem_all _ (List.getLast_mem (List.cons_ne_nil row rows))
          have := countBeyond_strict records cursor _ hmem hgt
          omega
    · rw [if_neg hp]
      simp

lemma backfillLoop_completed_exit (kind : String) (payload : Payload)
    (sensor_id profile_id : ℕ) :
    ∀ (fuel : ℕ) (records : List TelemetryRecord) (cursor : ℕ × ℕ)
      (processed total : ℕ) (recs : List TelemetryRecord) (proc : ℕ) (e : Bool),
      backfillLoop kind payload sensor_id profile_id fuel records cursor processed total
        = .completed recs proc e →
      (e = false ∧ total ≤ proc)
    ∨ (e = true ∧ proc < total ∧ ∃ c, fetchPage sensor_id profile_id recs c = []) := by
  intro fuel
  induction fuel with
  | zero =>
    intro records cursor processed total recs proc e h
    rw [backfillLoop] at h
    exact absurd h (by simp)
  | succ n ih =>
    intro records cursor processed total recs proc e h
    rw [backfillLoop] at h
    by_cases hp : processed < total
    · rw [if_pos hp] at h
      split at h
      · next hpage =>
        injection h with h1 h2 h3
        subst h1; subst h2
        exact Or.inr ⟨h3.symm, hp, cursor, hpage⟩
      · next row rows hpage =>
        split at h
        · exact absurd h (by simp)
        · exact ih _ _ _ _ _ _ _ h
    · rw [if_neg hp] at h
      injection h with h1 h2 h3
      subst h1; subst h2
      exact Or.inl ⟨h3.symm, by omega⟩

/-- C6: the page loop terminates on every finite record store - each page
has at most 1000 rows, selected among the task's matching rows strictly
beyond the cursor and sorted ascending by (timestamp, id); the cursor
strictly advances past every non-empty page; with the provided fuel the
loop never exhausts; and a normal exit happens exactly on an empty page
(with processed still below total) or on processed reaching the stored
total. -/
theorem backfill_pagination (kind : String) (payload : Payload)
    (sensor_id profile_id : ℕ) (records : List TelemetryRecord) (cursor : ℕ × ℕ)
    (processed total : ℕ) :
    (fetchPage sensor_id profile_id records cursor).length ≤ BATCH_SIZE
  ∧ List.Sorted (fun a b => keyLe (recKey a) (recKey b) = true)
      (fetchPage sensor_id profile_id records cursor)
  ∧ (∀ r ∈ fetchPage sensor_id profile_id records cursor,
      r ∈ records ∧ r.sensor_id = sensor_id ∧ needsWork profile_id r = true
        ∧ keyLt cursor (recKey r) = true)
  ∧ (∀ row rows, fetchPage sensor_id profile_id records cursor = row :: rows →
      keyLt cursor (recKey ((row :: rows).getLast (List.cons_ne_nil row rows))) = true)
  ∧ backfillLoop kind payload sensor_id profile_id (loopFuel records cursor) records cursor
      processed total ≠ .outOfFuel
  ∧ (∀ recs proc e,
      backfillLoop kind payload sensor_id profile_id (loopFuel records cursor) records cursor
        processed total = .completed recs proc e →
      (e = false ∧ total ≤ proc)
    ∨ (e = true ∧ proc < total ∧ ∃ c, fetchPage sensor_id profile_id recs c = [])) := by
  refine ⟨?_, ?_, fun r hr => mem_fetchPage sensor_id profile_id records cursor r hr,
    ?_, ?_, fun recs proc e h =>
      backfillLoop_completed_exit kind payload sensor_id profile_id _ _ _ _ _ _ _ _ h⟩
  · rw [fetchPage]
    exact List.length_take_le _ _
  · rw [fetchPage]
    exact List.Pairwise.sublist (List.take_sublist _ _)
      (List.sorted_insertionSort (fun a b => keyLe (recKey a) (recKey b) = true) _)
  · intro row rows hpage
    have hmem_all : ∀ r ∈ row :: rows,
        r ∈ records ∧ r.sensor_id = sensor_id ∧ needsWork profile_id r = true
          ∧ keyLt cursor (recKey r) = true := by
      rw [← hpage]
      exact fun r hr => mem_fetchPage sensor_id profile_id records cursor r hr
    exact (hmem_all _ (List.getLast_mem (List.cons_ne_nil row rows))).2.2.2
  · exact backfillLoop_no_fuel_exhaustion kind payload sensor_id profile_id _ _ _ _ _
      (by rw [loopFuel]; omega)

/-- Witness: the loop over a tiny store does not exhaust its fuel. -/
theorem backfill_pagination_witness :
    backfillLoop "linear" { a := .num 2, b := .num 1 } 1 7
      (loopFuel [{ id := 1, sensor_id := 1, timestamp := 1, signal := "s", raw_value := 3 }]
        initCursor)
      [{ id := 1, sensor_id := 1, timestamp := 1, signal := "s", raw_value := 3 }]
      initCursor 0 1 ≠ .outOfFuel :=
  (backfill_pagination "linear" { a := .num 2, b := .num 1 } 1 7
    [{ id := 1, sensor_id := 1, timestamp := 1, signal := "s", raw_value := 3 }]
    initCursor 0 1).2.2.2.2.1

/-! ## Theorems: worker failure handling -/

lemma pyTake_length_le (s : String) (n : ℕ) : (pyTake s n).length ≤ n := by
  show (s.data.take n).length ≤ n
  exact List.length_take_le n s.data

lemma mem_updateTask_of_ne (tasks : List BackfillTask) (task_id : ℕ)
    (f : BackfillTask → BackfillTask) (t : BackfillTask) (ht : t ∈ tasks)
    (hne : t.id ≠ task_id) : t ∈ updateTask tasks task_id f :=
  List.mem_map.mpr ⟨t, ht, by rw [if_neg hne]⟩

lemma claim_pending_some_inv (now : ℕ) (tasks : List BackfillTask)
    (task : BackfillTask) (tasks1 : List BackfillTask)
    (h : claim_pending now tasks = (some task, tasks1)) :
    ∃ t0, selectPending tasks = some t0
      ∧ task = { t0 with status := .running, started_at := some now }
      ∧ tasks1 = updateTask tasks t0.id
          fun u => { u with status := .running, started_at := some now } := by
  cases hsel : selectPending tasks with
  | none => rw [claim_pending, hsel] at h; simp at h
  | some t0 =>
    rw [claim_pending, hsel] at h
    injection h with h1 h2
    exact ⟨t0, rfl, (Option.some.inj h1).symm, h2.symm⟩

lemma worker_preserves_failed (now : ℕ) (w : World)
    (hids : (w.tasks.map fun t => t.id).Nodup)
    (t : BackfillTask) (ht : t ∈ w.tasks) (hfail : t.status = .failed) :
    t ∈ (conversion_backfill now w).2.tasks := by
  rw [conversion_backfill]
  split
  · exact ht
  · next task tasks1 heq =>
    obtain ⟨t0, hsel, htask, htasks1⟩ := claim_pending_some_inv now w.tasks task tasks1 heq
    obtain ⟨ht0mem, ht0pend, _⟩ := selectPending_eq_some w.tasks t0 hsel
    have hne : t.id ≠ t0.id := by
      intro hideq
      have : t = t0 := List.inj_on_of_nodup_map hids ht ht0mem hideq
      rw [this, ht0pend] at hfail
      exact absurd hfail (by simp)
    have hnetask : t.id ≠ task.id := by rw [htask]; exact hne
    have ht1 : t ∈ tasks1 := htasks1 ▸ mem_updateTask_of_ne w.tasks t0.id _ t ht hne
    split
    · exact mem_updateTask_of_ne tasks1 task.id _ t ht1 hnetask
    · simp only []
      split
      · exact mem_updateTask_of_ne _ task.id _ t
          (mem_updateTask_of_ne tasks1 task.id _ t ht1 hnetask) hnetask
      · split
        · exact mem_updateTask_of_ne _ task.id _ t
            (mem_updateTask_of_ne tasks1 task.id _ t ht1 hnetask) hnetask
        · exact mem_updateTask_of_ne _ task.id _ t
            (mem_updateTask_of_ne _ task.id _ t
              (mem_updateTask_of_ne tasks1 task.id _ t ht1 hnetask) hnetask) hnetask
        · exact ht

/-- C5: when processing of a claimed backfill task raises an exception,
the worker marks that task failed with the error message truncated to at
most 500 characters, keeps the records written so far, and returns
normally; and the worker never touches a failed task again - failed is
terminal for it. -/
theorem worker_failure_spec (now : ℕ) (w : World) (task : BackfillTask)
    (tasks1 : List BackfillTask)
    (hclaim : claim_pending now w.tasks = (some task, tasks1))
    (profile : Profile)
    (hprof : w.profiles.find? (fun p => p.id = task.conversion_profile_id) = some profile)
    (hpos : (w.records.filter fun r =>
        r.sensor_id = task.sensor_id && needsWork task.conversion_profile_id r).length ≠ 0)
    (records1 : List TelemetryRecord) (processedr : ℕ) (msg : String)
    (hloop : backfillLoop profile.kind profile.payload task.sensor_id
        task.conversion_profile_id (loopFuel w.records initCursor)
        w.records initCursor 0
        ((w.records.filter fun r =>
          r.sensor_id = task.sensor_id && needsWork task.conversion_profile_id r).length)
        = .raised records1 processedr msg) :
    ((conversion_backfill now w).1).isSome
  ∧ (∀ t ∈ (conversion_backfill now w).2.tasks, t.id = task.id →
      t.status = .failed ∧ ∃ m, t.error_message = some m ∧ m.length ≤ 500)
  ∧ (conversion_backfill now w).2.records = records1
  ∧ (∀ (now2 : ℕ) (w2 : World), (w2.tasks.map fun t => t.id).Nodup →
      ∀ t ∈ w2.tasks, t.status = .failed → t ∈ (conversion_backfill now2 w2).2.tasks) := by
  set total0 : ℕ := (w.records.filter fun r =>
    r.sensor_id = task.sensor_id && needsWork task.conversion_profile_id r).length
    with htotal0
  have hbody : conversion_backfill now w
      = (some "failed",
         { w with
           tasks := mark_failed (update_progress (set_total tasks1 task.id total0)
                      task.id processedr) task.id (pyTake msg 500) now,
           records := records1 }) := by
    rw [conversion_backfill]
    split
    · next heq => rw [hclaim] at heq; simp at heq
    · next task' tasks1' heq =>
      rw [hclaim] at heq
      injection heq with h1 h2
      obtain rfl : task' = task := (Option.some.inj h1).symm
      subst h2
      split
      · next hprof2 => rw [hprof] at hprof2; simp at hprof2
      · next profile' hprof2 =>
        rw [hprof] at hprof2
        obtain rfl : profile' = profile := (Option.some.inj hprof2).symm
        simp only []
        rw [← htotal0, if_neg hpos, hloop]
  refine ⟨by rw [hbody]; rfl, ?_, by rw [hbody], worker_preserves_failed⟩
  intro t hmem hid
  rw [hbody] at hmem
  simp only [mark_failed, updateTask, List.mem_map] at hmem
  obtain ⟨u, hu, hueq⟩ := hmem
  by_cases hud : u.id = task.id
  · rw [if_pos hud] at hueq
    rw [← hueq]
    exact ⟨rfl, pyTake msg 500, rfl, pyTake_length_le msg 500⟩
  · rw [if_neg hud] at hueq
    rw [← hueq] at hid
    exact absurd hid hud

/-- A world whose single pending task points at a lookup-table profile
with a malformed physical entry, so its backfill raises. -/
def wFail : World :=
  { tasks := [{ id := 1, sensor_id := 1, project_id := 1, conversion_profile_id := 5,
                status := .pending, created_at := 1 }],
    profiles := [{ id := 5, kind := "lookup_table",
                   payload := { table := some [{ raw := some (.num 0), physical := some (.num 0) },
                                               { raw := some (.num 10), physical := none }] } }],
    records := [{ id := 1, sensor_id := 1, timestamp := 1, signal := "s", raw_value := 20 }] }

/-- Witness: on that world the worker returns normally (with the task
marked failed by the failure theorem). -/
theorem worker_failure_spec_witness : ((conversion_backfill 3 wFail).1).isSome :=
  (worker_failure_spec 3 wFail
    { id := 1, sensor_id := 1, project_id := 1, conversion_profile_id := 5,
      status := .running, created_at := 1, started_at := some 3 }
    [{ id := 1, sensor_id := 1, project_id := 1, conversion_profile_id := 5,
       status := .running, created_at := 1, started_at := some 3 }]
    rfl
    { id := 5, kind := "lookup_table",
      payload := { table := some [{ raw := some (.num 0), physical := some (.num 0) },
                                  { raw := some (.num 10), physical := none }] } }
    rfl (by decide)
    [{ id := 1, sensor_id := 1, timestamp := 1, signal := "s", raw_value := 20 }]
    0 "KeyError" rfl).1

/-! ## Theorems: loop-level idempotence of the backfill -/

/-- The task's WHERE clause on one row (the first two conjuncts of the
page query's predicate). -/
def matchesB (sensor_id profile_id : ℕ) (r : TelemetryRecord) : Bool :=
  r.sensor_id = sensor_id && needsWork profile_id r

/-- A row the recomputation maps to itself. -/
def isFix (kind : String) (payload : Payload) (profile_id : ℕ) (r : TelemetryRecord) : Prop :=
  backfillUpdate kind payload profile_id r = .ok r

/-- The updated version of a row (identity when the update raises). -/
def updOf (kind : String) (payload : Payload) (profile_id : ℕ) (r : TelemetryRecord) :
    TelemetryRecord :=
  match backfillUpdate kind payload profile_id r with
  | .ok u => u
  | .error _ => r

/-- Matching rows strictly beyond the cursor: the remaining work. -/
def countMB (sensor_id profile_id : ℕ) (records : List TelemetryRecord)
    (cursor : ℕ × ℕ) : ℕ :=
  (records.filter fun r =>
    matchesB sensor_id profile_id r && keyLt cursor (recKey r)).length

lemma backfillUpdate_basic_frame (kind : String) (payload : Payload) (profile_id : ℕ)
    (r u : TelemetryRecord) (h : backfillUpdate kind payload profile_id r = .ok u) :
    u.id = r.id ∧ u.sensor_id = r.sensor_id ∧ u.timestamp = r.timestamp
      ∧ u.raw_value = r.raw_value := by
  cases hconv : apply_conversion kind payload r.raw_value with
  | error msg => simp [backfillUpdate, hconv] at h
  | ok o =>
    cases o with
    | none =>
      simp only [backfillUpdate, hconv] at h
      obtain rfl := Except.ok.inj h
      exact ⟨rfl, rfl, rfl, rfl⟩
    | some v =>
      simp only [backfillUpdate, hconv] at h
      obtain rfl := Except.ok.inj h
      exact ⟨rfl, rfl, rfl, rfl⟩

lemma updOf_frame (kind : String) (payload : Payload) (profile_id : ℕ)
    (r : TelemetryRecord) :
    (updOf kind payload profile_id r).id = r.id
  ∧ (updOf kind payload profile_id r).sensor_id = r.sensor_id
  ∧ (updOf kind payload profile_id r).timestamp = r.timestamp := by
  rw [updOf]
  cases h : backfillUpdate kind payload profile_id r with
  | error e => exact ⟨rfl, rfl, rfl⟩
  | ok u =>
    obtain ⟨h1, h2, h3, _⟩ := backfillUpdate_basic_frame kind payload profile_id r u h
    exact ⟨h1, h2, h3⟩

lemma recKey_updOf (kind : String) (payload : Payload) (profile_id : ℕ)
    (r : TelemetryRecord) :
    recKey (updOf kind payload profile_id r) = recKey r := by
  obtain ⟨h1, _, h3⟩ := updOf_frame kind payload profile_id r
  simp [recKey, h1, h3]

lemma isFix_updOf (kind : String) (payload : Payload) (profile_id : ℕ)
    (r u : TelemetryRecord) (h : backfillUpdate kind payload profile_id r = .ok u) :
    updOf kind payload profile_id r = u ∧ isFix kind payload profile_id u := by
  constructor
  · rw [updOf, h]
  · exact backfillUpdate_converges kind payload profile_id r u h

lemma buildUpdates_ok_map (kind : String) (payload : Payload) (profile_id : ℕ) :
    ∀ (l us : List TelemetryRecord), buildUpdates kind payload profile_id l = .ok us →
      us = l.map (updOf kind payload profile_id) := by
  intro l
  induction l with
  | nil =>
    intro us h
    rw [buildUpdates] at h
    obtain rfl := Except.ok.inj h
    rfl
  | cons r rs ih =>
    intro us h
    rw [buildUpdates] at h
    cases hr : backfillUpdate kind payload profile_id r with
    | error e => rw [hr] at h; simp at h
    | ok u =>
      rw [hr] at h
      cases hrs : buildUpdates kind payload profile_id rs with
      | error e => rw [hrs] at h; simp at h
      | ok us2 =>
        rw [hrs] at h
        simp only [] at h
        obtain rfl := Except.ok.inj h
        rw [List.map_cons, ← ih us2 hrs, (isFix_updOf kind payload profile_id r u hr).1]

lemma buildUpdates_of_fix (kind : String) (payload : Payload) (profile_id : ℕ) :
    ∀ (l : List TelemetryRecord), (∀ r ∈ l, isFix kind payload profile_id r) →
      buildUpdates kind payload profile_id l = .ok l := by
  intro l
  induction l with
  | nil => intro _; rfl
  | cons r rs ih =>
    intro hfix
    rw [buildUpdates, hfix r (List.mem_cons_self r rs),
      ih fun q hq => hfix q (List.mem_cons_of_mem r hq)]

lemma recKey_inj_of_nodup (records : List TelemetryRecord)
    (hkeys : (records.map recKey).Nodup) {u r : TelemetryRecord}
    (hu : u ∈ records) (hr : r ∈ records) (h : recKey u = recKey r) : u = r :=
  List.inj_on_of_nodup_map hkeys hu hr h

lemma applyUpdates_self (records page : List TelemetryRecord)
    (hkeys : (records.map recKey).Nodup) (hsub : page ⊆ records) :
    applyUpdates records page = records := by
  rw [applyUpdates]
  have hptw : ∀ r ∈ records, (match page.find? fun u =>
      u.id = r.id && u.sensor_id = r.sensor_id && u.timestamp = r.timestamp with
    | some u => u
    | none => r) = r := by
    intro r hr
    cases hf : page.find? fun u =>
        u.id = r.id && u.sensor_id = r.sensor_id && u.timestamp = r.timestamp with
    | none => rfl
    | some u =>
      have hu := List.find?_some hf
      simp only [Bool.and_eq_true, decide_eq_true_eq] at hu
      exact recKey_inj_of_nodup records hkeys
        (hsub (List.mem_of_find?_eq_some hf)) hr (by simp [recKey, hu.1.1, hu.2])
  rw [List.map_congr_left hptw, List.map_id']

lemma find?_map_updOf (kind : String) (payload : Payload) (profile_id : ℕ)
    (r : TelemetryRecord) :
    ∀ (page : List TelemetryRecord), r ∈ page →
      (∀ q ∈ page, recKey q = recKey r → q = r) →
      (page.map (updOf kind payload profile_id)).find? (fun u =>
          u.id = r.id && u.sensor_id = r.sensor_id && u.timestamp = r.timestamp)
        = some (updOf kind payload profile_id r) := by
  intro page
  induction page with
  | nil => intro h; simp at h
  | cons q qs ih =>
    intro hmem hinj
    rw [List.map_cons, List.find?]
    obtain ⟨hid, hsen, hts⟩ := updOf_frame kind payload profile_id q
    by_cases hq : q = r
    · subst hq
      cases hcond : (decide ((updOf kind payload profile_id q).id = q.id) &&
          decide ((updOf kind payload profile_id q).sensor_id = q.sensor_id) &&
          decide ((updOf kind payload profile_id q).timestamp = q.timestamp)) with
      | false => simp [hid, hsen, hts] at hcond
      | true => rfl
    · have hqr : ¬ (recKey q = recKey r) := fun hk => hq (hinj q (List.mem_cons_self q qs) hk)
      have hpred : ¬ ((updOf kind payload profile_id q).id = r.id
          ∧ (updOf kind payload profile_id q).sensor_id = r.sensor_id
          ∧ (updOf kind payload profile_id q).timestamp = r.timestamp) := by
        rintro ⟨h1, _, h3⟩
        exact hqr (by simp [recKey, ← hid, ← hts, h1, h3])
      cases hcond : (decide ((updOf kind payload profile_id q).id = r.id) &&
          decide ((updOf kind payload profile_id q).sensor_id = r.sensor_id) &&
          decide ((updOf kind payload profile_id q).timestamp = r.timestamp)) with
      | true =>
        simp only [Bool.and_eq_true, decide_eq_true_eq] at hcond
        exact absurd ⟨hcond.1.1, hcond.1.2, hcond.2⟩ hpred
      | false =>
        exact ih
          (by rcases List.mem_cons.mp hmem with h | h
              · exact absurd h.symm hq
              · exact h)
          fun q2 hq2 => hinj q2 (List.mem_cons_of_mem q hq2)

lemma applyUpdates_of_page (kind : String) (payload : Payload) (profile_id : ℕ)
    (records page : List TelemetryRecord)
    (hkeys : (records.map recKey).Nodup) (hsub : page ⊆ records) :
    applyUpdates records (page.map (updOf kind payload profile_id))
      = records.map fun r =>
          if r ∈ page then updOf kind payload profile_id r else r := by
  rw [applyUpdates]
  apply List.map_congr_left
  intro r hr
  by_cases hrp : r ∈ page
  · rw [if_pos hrp, find?_map_updOf kind payload profile_id r page hrp
      fun q hq hk => recKey_inj_of_nodup records hkeys (hsub hq) hr hk]
  · rw [if_neg hrp]
    cases hf : (page.map (updOf kind payload profile_id)).find? fun u =>
        u.id = r.id && u.sensor_id = r.sensor_id && u.timestamp = r.timestamp with
    | none => rfl
    | some u =>
      have humem := List.mem_of_find?_eq_some hf
      obtain ⟨q, hq, hqe⟩ := List.mem_map.mp humem
      have hu := List.find?_some hf
      simp only [Bool.and_eq_true, decide_eq_true_eq] at hu
      have hkq : recKey q = recKey r := by
        rw [← recKey_updOf kind payload profile_id q, hqe]
        simp [recKey, hu.1.1, hu.2]
      exact absurd (recKey_inj_of_nodup records hkeys (hsub hq) hr hkq ▸ hq) hrp

lemma keyLe_refl (k : ℕ × ℕ) : keyLe k k = true := by simp [keyLe]

lemma keyLt_of_keyLe_ne {k l : ℕ × ℕ} (hle : keyLe k l = true) (hne : k ≠ l) :
    keyLt k l = true := by
  obtain ⟨k1, k2⟩ := k
  obtain ⟨l1, l2⟩ := l
  rw [keyLe_iff] at hle
  rw [keyLt_iff]
  rw [ne_eq, Prod.mk.injEq] at hne
  dsimp only at hle ⊢
  omega

lemma keyLt_false_of_keyLe {k l : ℕ × ℕ} (hle : keyLe k l = true) :
    keyLt l k = false := by
  rw [keyLe_iff] at hle
  cases hb : keyLt l k
  · rfl
  · rw [keyLt_iff] at hb; omega

lemma fetchPage_sorted (sensor_id profile_id : ℕ) (records : List TelemetryRecord)
    (cursor : ℕ × ℕ) :
    List.Sorted (fun a b => keyLe (recKey a) (recKey b) = true)
      (fetchPage sensor_id profile_id records cursor) := by
  rw [fetchPage]
  exact List.Pairwise.sublist (List.take_sublist _ _)
    (List.sorted_insertionSort (fun a b => keyLe (recKey a) (recKey b) = true) _)

lemma fetchPage_nodup (sensor_id profile_id : ℕ) (records : List TelemetryRecord)
    (cursor : ℕ × ℕ) (hnd : records.Nodup) :
    (fetchPage sensor_id profile_id records cursor).Nodup := by
  rw [fetchPage]
  exact List.Sublist.nodup (List.take_sublist _ _)
    (((List.perm_insertionSort _ _).nodup_iff).mpr (List.Nodup.filter _ hnd))

lemma sorted_keyLe_getLast :
    ∀ (l : List TelemetryRecord) (h : l ≠ []),
      List.Sorted (fun a b => keyLe (recKey a) (recKey b) = true) l →
      ∀ a ∈ l, keyLe (recKey a) (recKey (l.getLast h)) = true := by
  intro l h hs a ha
  have hsplit := List.dropLast_append_getLast h
  rw [← hsplit] at ha
  have hs2 : List.Pairwise (fun a b => keyLe (recKey a) (recKey b) = true)
      (l.dropLast ++ [l.getLast h]) := by rw [hsplit]; exact hs
  rw [List.pairwise_append] at hs2
  rcases List.mem_append.mp ha with hd | hl
  · exact hs2.2.2 a hd _ (List.mem_singleton.mpr rfl)
  · rw [List.mem_singleton.mp hl]
    exact keyLe_refl _

lemma fetchPage_nil_no_work (sensor_id profile_id : ℕ) (records : List TelemetryRecord)
    (cursor : ℕ × ℕ) (h : fetchPage sensor_id profile_id records cursor = [])
    (r : TelemetryRecord) (hr : r ∈ records)
    (hm : matchesB sensor_id profile_id r = true) :
    keyLt cursor (recKey r) = false := by
  cases hb : keyLt cursor (recKey r)
  · rfl
  · exfalso
    simp only [matchesB] at hm
    have hmem : r ∈ records.filter fun x =>
        x.sensor_id = sensor_id && needsWork profile_id x && keyLt cursor (recKey x) :=
      List.mem_filter.mpr ⟨hr, by rw [hm, hb]; rfl⟩
    rw [fetchPage, List.take_eq_nil_iff] at h
    rcases h with h | h
    · norm_num [BATCH_SIZE] at h
    · have hperm := List.perm_insertionSort
        (fun a b => keyLe (recKey a) (recKey b) = true)
        (records.filter fun x =>
          x.sensor_id = sensor_id && needsWork profile_id x && keyLt cursor (recKey x))
      rw [h] at hperm
      rw [(List.nil_perm).mp hperm] at hmem
      simp at hmem

lemma countMB_zero_no_work (sensor_id profile_id : ℕ) (records : List TelemetryRecord)
    (cursor : ℕ × ℕ) (h : countMB sensor_id profile_id records cursor = 0)
    (r : TelemetryRecord) (hr : r ∈ records)
    (hm : matchesB sensor_id profile_id r = true) :
    keyLt cursor (recKey r) = false := by
  cases hb : keyLt cursor (recKey r)
  · rfl
  · exfalso
    rw [countMB, List.length_eq_zero] at h
    have hmem : r ∈ records.filter fun x =>
        matchesB sensor_id profile_id x && keyLt cursor (recKey x) :=
      List.mem_filter.mpr ⟨hr, by rw [hm, hb]; rfl⟩
    rw [h] at hmem
    simp at hmem

lemma fetchPage_omitted_beyond (sensor_id profile_id : ℕ)
    (records : List TelemetryRecord) (cursor : ℕ × ℕ)
    (row : TelemetryRecord) (rows : List TelemetryRecord)
    (hpage : fetchPage sensor_id profile_id records cursor = row :: rows)
    (r : TelemetryRecord) (hr : r ∈ records)
    (hm : matchesB sensor_id profile_id r = true)
    (hlt : keyLt cursor (recKey r) = true)
    (hnotin : r ∉ fetchPage sensor_id profile_id records cursor) :
    keyLe (recKey ((row :: rows).getLast (List.cons_ne_nil row rows))) (recKey r) = true := by
  simp only [matchesB] at hm
  have hmemF : r ∈ records.filter fun x =>
      x.sensor_id = sensor_id && needsWork profile_id x && keyLt cursor (recKey x) :=
    List.mem_filter.mpr ⟨hr, by rw [hm, hlt]; rfl⟩
  set s := (records.filter fun x =>
      x.sensor_id = sensor_id && needsWork profile_id x
        && keyLt cursor (recKey x)).insertionSort
      fun a b => keyLe (recKey a) (recKey b) = true with hs
  have hrs : r ∈ s := (List.perm_insertionSort _ _).mem_iff.mpr hmemF
  have hsorted : List.Sorted (fun a b => keyLe (recKey a) (recKey b) = true) s :=
    List.sorted_insertionSort _ _
  have hsplit : s.take BATCH_SIZE ++ s.drop BATCH_SIZE = s := List.take_append_drop _ _
  have hpage2 : s.take BATCH_SIZE = row :: rows := by rw [← hpage, fetchPage, hs]
  have hrdrop : r ∈ s.drop BATCH_SIZE := by
    rcases List.mem_append.mp (by rw [hsplit]; exact hrs) with h | h
    · exact absurd (by rw [fetchPage, ← hs, hpage2]; exact hpage2 ▸ h) hnotin
    · exact h
  have hlastmem : ((row :: rows).getLast (List.cons_ne_nil row rows)) ∈ s.take BATCH_SIZE := by
    rw [hpage2]
    exact List.getLast_mem _
  have hpw : List.Pairwise (fun a b => keyLe (recKey a) (recKey b) = true)
      (List.take BATCH_SIZE s ++ List.drop BATCH_SIZE s) := by
    rw [hsplit]
    exact hsorted
  rw [List.pairwise_append] at hpw
  exact hpw.2.2 _ hlastmem r hrdrop

lemma buildUpdates_ok_elem (kind : String) (payload : Payload) (profile_id : ℕ) :
    ∀ (l us : List TelemetryRecord), buildUpdates kind payload profile_id l = .ok us →
      ∀ r ∈ l, ∃ u, backfillUpdate kind payload profile_id r = .ok u := by
  intro l
  induction l with
  | nil => intro us _ r hr; simp at hr
  | cons q qs ih =>
    intro us h r hr
    rw [buildUpdates] at h
    cases hq : backfillUpdate kind payload profile_id q with
    | error e => rw [hq] at h; simp at h
    | ok u =>
      rw [hq] at h
      cases hqs : buildUpdates kind payload profile_id qs with
      | error e => rw [hqs] at h; simp at h
      | ok us2 =>
        rcases List.mem_cons.mp hr with rfl | hmem
        · exact ⟨u, hq⟩
        · exact ih us2 hqs r hmem

lemma backfillLoop_of_fix (kind : String) (payload : Payload) (sensor_id profile_id : ℕ) :
    ∀ (fuel : ℕ) (records : List TelemetryRecord) (cursor : ℕ × ℕ) (processed total : ℕ),
      (records.map recKey).Nodup →
      (∀ r ∈ records, matchesB sensor_id profile_id r = true →
        isFix kind payload profile_id r) →
      countBeyond records cursor < fuel →
      ∃ proc e,
        backfillLoop kind payload sensor_id profile_id fuel records cursor processed total
          = .completed records proc e := by
  intro fuel
  induction fuel with
  | zero => intro records cursor processed total _ _ h; omega
  | succ n ih =>
    intro records cursor processed total hkeys hfix h
    rw [backfillLoop]
    by_cases hp : processed < total
    · rw [if_pos hp]
      cases hpage : fetchPage sensor_id profile_id records cursor with
      | nil => exact ⟨processed, true, rfl⟩
      | cons row rows =>
        have hprops : ∀ r ∈ row :: rows,
            r ∈ records ∧ r.sensor_id = sensor_id ∧ needsWork profile_id r = true
              ∧ keyLt cursor (recKey r) = true := by
          rw [← hpage]
          exact fun r hr => mem_fetchPage sensor_id profile_id records cursor r hr
        have hpagefix : ∀ r ∈ row :: rows, isFix kind payload profile_id r := by
          intro r hr
          obtain ⟨hmem, hsen, hw, _⟩ := hprops r hr
          exact hfix r hmem (by rw [matchesB]; simp [hsen, hw])
        simp only [buildUpdates_of_fix kind payload profile_id _ hpagefix]
        rw [applyUpdates_self records (row :: rows) hkeys fun r hr => (hprops r hr).1]
        apply ih records _ _ total hkeys hfix
        obtain ⟨hlmem, _, _, hlgt⟩ := hprops _ (List.getLast_mem (List.cons_ne_nil row rows))
        have := countBeyond_strict records cursor _ hlmem hlgt
        omega
    · rw [if_neg hp]
      exact ⟨processed, false, rfl⟩

lemma backfillLoop_fix_invariant (kind : String) (payload : Payload)
    (sensor_id profile_id : ℕ) :
    ∀ (fuel : ℕ) (records : List TelemetryRecord) (cursor : ℕ × ℕ)
      (processed total : ℕ) (recs1 : List TelemetryRecord) (proc : ℕ) (e : Bool),
      (records.map recKey).Nodup →
      (∀ r ∈ records, matchesB sensor_id profile_id r = true →
        keyLt cursor (recKey r) = false → isFix kind payload profile_id r) →
      processed + countMB sensor_id profile_id records cursor ≤ total →
      backfillLoop kind payload sensor_id profile_id fuel records cursor processed total
        = .completed recs1 proc e →
      (∀ r ∈ recs1, matchesB sensor_id profile_id r = true →
        isFix kind payload profile_id r)
      ∧ recs1.map recKey = records.map recKey := by
  intro fuel
  induction fuel with
  | zero =>
    intro records cursor processed total recs1 proc e _ _ _ h
    rw [backfillLoop] at h
    exact absurd h (by simp)
  | succ n ih =>
    intro records cursor processed total recs1 proc e hkeys hP hcount h
    rw [backfillLoop] at h
    by_cases hp : processed < total
    · rw [if_pos hp] at h
      split at h
      · next hpage =>
        injection h with h1 h2 h3
        subst h1
        exact ⟨fun r hr hm => hP r hr hm
          (fetchPage_nil_no_work sensor_id profile_id records cursor hpage r hr hm), rfl⟩
      · next row rows hpage =>
        split at h
        · exact absurd h (by simp)
        · next updated hupd =>
          have hprops : ∀ r ∈ row :: rows,
              r ∈ records ∧ r.sensor_id = sensor_id ∧ needsWork profile_id r = true
                ∧ keyLt cursor (recKey r) = true := by
            rw [← hpage]
            exact fun r hr => mem_fetchPage sensor_id profile_id records cursor r hr
          have hsub : (row :: rows) ⊆ records := fun r hr => (hprops r hr).1
          have hmB : ∀ r ∈ row :: rows, matchesB sensor_id profile_id r = true := by
            intro r hr
            obtain ⟨_, hsen, hw, _⟩ := hprops r hr
            rw [matchesB]
            simp [hsen, hw]
          have happly : applyUpdates records updated
              = records.map fun r =>
                  if r ∈ row :: rows then updOf kind payload profile_id r else r := by
            rw [buildUpdates_ok_map kind payload profile_id _ _ hupd]
            exact applyUpdates_of_page kind payload profile_id records _ hkeys hsub
          have hlastmem : (row :: rows).getLast (List.cons_ne_nil row rows) ∈ row :: rows :=
            List.getLast_mem _
          obtain ⟨hlmem, _, _, hlgt⟩ := hprops _ hlastmem
          have hsorted : List.Sorted (fun a b => keyLe (recKey a) (recKey b) = true)
              (row :: rows) := by
            rw [← hpage]
            exact fetchPage_sorted sensor_id profile_id records cursor
          have hpagele : ∀ r ∈ row :: rows,
              keyLe (recKey r)
                (recKey ((row :: rows).getLast (List.cons_ne_nil row rows))) = true :=
            fun r hr => sorted_keyLe_getLast (row :: rows) (List.cons_ne_nil row rows)
              hsorted r hr
          have hkeymap : ((records.map fun r =>
              if r ∈ row :: rows then updOf kind payload profile_id r else r).map recKey)
              = records.map recKey := by
            rw [List.map_map]
            apply List.map_congr_left
            intro r _
            show recKey (if r ∈ row :: rows then updOf kind payload profile_id r else r) = recKey r
            by_cases hrp : r ∈ row :: rows
            · rw [if_pos hrp, recKey_updOf]
            · rw [if_neg hrp]
          have hkeys2 : (((records.map fun r =>
              if r ∈ row :: rows then updOf kind payload profile_id r else r).map recKey)).Nodup := by
            rw [hkeymap]
            exact hkeys
          have hP2 : ∀ r2 ∈ (records.map fun r =>
              if r ∈ row :: rows then updOf kind payload profile_id r else r),
              matchesB sensor_id profile_id r2 = true →
              keyLt (recKey ((row :: rows).getLast (List.cons_ne_nil row rows)))
                (recKey r2) = false →
              isFix kind payload profile_id r2 := by
            intro r2 hr2 hm2 hlt2
            obtain ⟨r, hr, hre⟩ := List.mem_map.mp hr2
            by_cases hrp : r ∈ row :: rows
            · rw [if_pos hrp] at hre
              obtain ⟨u, hu⟩ := buildUpdates_ok_elem kind payload profile_id _ _ hupd r hrp
              obtain ⟨hequ, hfixu⟩ := isFix_updOf kind payload profile_id r u hu
              rw [← hre, hequ]
              rw [hequ] at hre
              exact hfixu
            · rw [if_neg hrp] at hre
              subst hre
              cases hb : keyLt cursor (recKey r)
              · exact hP r hr hm2 hb
              · exfalso
                have hnotin : r ∉ fetchPage sensor_id profile_id records cursor := by
                  rw [hpage]
                  exact hrp
                have hle := fetchPage_omitted_beyond sensor_id profile_id records cursor
                  row rows hpage r hr hm2 hb hnotin
                have hrne : recKey ((row :: rows).getLast (List.cons_ne_nil row rows))
                    ≠ recKey r := by
                  intro hk
                  exact hrp ((recKey_inj_of_nodup records hkeys hr hlmem hk.symm) ▸ hlastmem)
                have hlt := keyLt_of_keyLe_ne hle hrne
                rw [hlt2] at hlt
                simp at hlt
          have hstep1 : countMB sensor_id profile_id
              (records.map fun r =>
                if r ∈ row :: rows then updOf kind payload profile_id r else r)
              (recKey ((row :: rows).getLast (List.cons_ne_nil row rows)))
              = countMB sensor_id profile_id records
                (recKey ((row :: rows).getLast (List.cons_ne_nil row rows))) := by
            rw [countMB, countMB, ← List.countP_eq_length_filter,
              ← List.countP_eq_length_filter, List.countP_map]
            apply List.countP_congr
            intro r _
            simp only [Function.comp_apply]
            by_cases hrp : r ∈ row :: rows
            · have hfalse : keyLt (recKey ((row :: rows).getLast (List.cons_ne_nil row rows)))
                  (recKey r) = false := keyLt_false_of_keyLe (hpagele r hrp)
              rw [if_pos hrp, recKey_updOf, hfalse]
              simp
            · rw [if_neg hrp]
          have hstep2 : (row :: rows).length
              + countMB sensor_id profile_id records
                  (recKey ((row :: rows).getLast (List.cons_ne_nil row rows)))
              ≤ countMB sensor_id profile_id records cursor := by
            have hpart := List.length_eq_countP_add_countP
              (fun r => keyLt (recKey ((row :: rows).getLast (List.cons_ne_nil row rows)))
                (recKey r))
              (records.filter fun r =>
                matchesB sensor_id profile_id r && keyLt cursor (recKey r))
            have hA : List.countP
                (fun r => keyLt (recKey ((row :: rows).getLast (List.cons_ne_nil row rows)))
                  (recKey r))
                (records.filter fun r =>
                  matchesB sensor_id profile_id r && keyLt cursor (recKey r))
                = countMB sensor_id profile_id records
                    (recKey ((row :: rows).getLast (List.cons_ne_nil row rows))) := by
              rw [List.countP_filter, countMB, ← List.countP_eq_length_filter]
              apply List.countP_congr
              intro r _
              simp only [Bool.and_eq_true]
              constructor
              · rintro ⟨h1, h2, _⟩
                exact ⟨h2, h1⟩
              · rintro ⟨h2, h1⟩
                exact ⟨h1, h2, keyLt_trans hlgt h1⟩
            have hB : (row :: rows).length ≤ List.countP
                (fun r => decide ¬(keyLt
                  (recKey ((row :: rows).getLast (List.cons_ne_nil row rows)))
                  (recKey r) = true))
                (records.filter fun r =>
                  matchesB sensor_id profile_id r && keyLt cursor (recKey r)) := by
              rw [List.countP_eq_length_filter]
              have hpnd : (row :: rows).Nodup := by
                rw [← hpage]
                exact fetchPage_nodup sensor_id profile_id records cursor
                  (List.Nodup.of_map recKey hkeys)
              apply List.Subperm.length_le
              apply List.Nodup.subperm hpnd
              intro r hr
              rw [List.mem_filter, List.mem_filter]
              obtain ⟨hmem, _, _, hgt⟩ := hprops r hr
              refine ⟨⟨hmem, by rw [hmB r hr, hgt]; rfl⟩, ?_⟩
              have hfalse : keyLt (recKey ((row :: rows).getLast (List.cons_ne_nil row rows)))
                  (recKey r) = false := keyLt_false_of_keyLe (hpagele r hr)
              simp [hfalse]
            rw [hA] at hpart
            have hFC : countMB sensor_id profile_id records cursor
                = (records.filter fun r =>
                    matchesB sensor_id profile_id r && keyLt cursor (recKey r)).length := rfl
            omega
          rw [happly] at h
          obtain ⟨hfix1, hkeys1⟩ := ih _ _ _ _ _ _ _ hkeys2 hP2 (by
            rw [hstep1]
            have := hcount
            rw [countMB] at this ⊢
            rw [countMB] at hstep2
            omega) h
          exact ⟨hfix1, by rw [hkeys1, hkeymap]⟩
    · rw [if_neg hp] at h
      injection h with h1 h2 h3
      subst h1
      exact ⟨fun r hr hm => hP r hr hm
        (countMB_zero_no_work sensor_id profile_id records cursor (by omega) r hr hm), rfl⟩

/-- C3: running the backfill page loop twice for the same sensor and
profile (with no interleaving ingest) leaves every telemetry record
exactly as after one run - a successful first run makes every
still-matching row a fixpoint of the recomputation, so a second run, with
any recounted total, completes with the record list unchanged (same
physical_value, conversion_status and conversion_profile_id everywhere). -/
theorem backfill_loop_idempotent (kind : String) (payload : Payload)
    (sensor_id profile_id : ℕ) (records : List TelemetryRecord)
    (hkeys : (records.map recKey).Nodup)
    (hpos : ∀ r ∈ records, keyLt initCursor (recKey r) = true)
    (total : ℕ)
    (htotal : (records.filter fun r =>
        r.sensor_id = sensor_id && needsWork profile_id r).length ≤ total)
    (recs1 : List TelemetryRecord) (proc : ℕ) (e : Bool)
    (hrun : backfillLoop kind payload sensor_id profile_id (loopFuel records initCursor)
        records initCursor 0 total = .completed recs1 proc e)
    (total2 processed2 : ℕ) :
    ∃ proc2 e2,
      backfillLoop kind payload sensor_id profile_id (loopFuel recs1 initCursor)
        recs1 initCursor processed2 total2 = .completed recs1 proc2 e2 := by
  have hP0 : ∀ r ∈ records, matchesB sensor_id profile_id r = true →
      keyLt initCursor (recKey r) = false → isFix kind payload profile_id r := by
    intro r hr _ hlt
    rw [hpos r hr] at hlt
    simp at hlt
  have hcount0 : 0 + countMB sensor_id profile_id records initCursor ≤ total := by
    have hle : countMB sensor_id profile_id records initCursor
        ≤ (records.filter fun r =>
            r.sensor_id = sensor_id && needsWork profile_id r).length := by
      rw [countMB, ← List.countP_eq_length_filter, ← List.countP_eq_length_filter]
      apply List.countP_mono_left
      intro r _ hpred
      rw [Bool.and_eq_true] at hpred
      exact hpred.1
    omega
  obtain ⟨hfix1, hkeys1⟩ := backfillLoop_fix_invariant kind payload sensor_id profile_id
    (loopFuel records initCursor) records initCursor 0 total recs1 proc e
    hkeys hP0 hcount0 hrun
  have hkeys2 : (recs1.map recKey).Nodup := by
    rw [hkeys1]
    exact hkeys
  exact backfillLoop_of_fix kind payload sensor_id profile_id
    (loopFuel recs1 initCursor) recs1 initCursor processed2 total2 hkeys2 hfix1
    (by rw [loopFuel]; omega)

/-- Witness: a one-record store under an unknown profile kind - the first
loop run marks the record conversion_failed, the second leaves the store
unchanged. -/
theorem backfill_loop_idempotent_witness :
    ∃ proc2 e2,
      backfillLoop "bogus" {} 1 7
        (loopFuel [{ id := 1, sensor_id := 1, timestamp := 1, signal := "s", raw_value := 3,
                     physical_value := none, conversion_status := .conversion_failed,
                     conversion_profile_id := some 7 }] initCursor)
        [{ id := 1, sensor_id := 1, timestamp := 1, signal := "s", raw_value := 3,
           physical_value := none, conversion_status := .conversion_failed,
           conversion_profile_id := some 7 }]
        initCursor 0 1
      = .completed
          [{ id := 1, sensor_id := 1, timestamp := 1, signal := "s", raw_value := 3,
             physical_value := none, conversion_status := .conversion_failed,
             conversion_profile_id := some 7 }] proc2 e2 :=
  backfill_loop_idempotent "bogus" {} 1 7
    [{ id := 1, sensor_id := 1, timestamp := 1, signal := "s", raw_value := 3 }]
    (by decide) (by decide) 1 (by decide)
    [{ id := 1, sensor_id := 1, timestamp := 1, signal := "s", raw_value := 3,
       physical_value := none, conversion_status := .conversion_failed,
       conversion_profile_id := some 7 }]
    1 false rfl 1 0

end TelemetryCore
